import Mathlib

/-!
Shallow embedding of the simulation core of the `web-geese` repository
(`src/store/simulationStore.ts`).  Machine numbers (JS doubles) are modelled
as rationals; `Math.random()` draws are modelled as explicit oracle inputs,
each assumed to lie in `[0,1)` where a claim needs it; `Math.sqrt` is an
oracle function parameter (no claim depends on its value).  Fresh string ids
produced by `generateId` are modelled as a counter `nextId` handing out
distinct numeric ids.
-/

namespace WebGeese

/-- 3-component vector, `Vector3` in the source. -/
structure Vec3 where
  x : ℚ
  y : ℚ
  z : ℚ
  deriving DecidableEq

/-- Time-of-day enum of the `Environment` record. -/
inductive TimeOfDay where
  | morning | afternoon | evening | night
  deriving DecidableEq

/-- Weather enum of the `Environment` record. -/
inductive Weather where
  | sunny | cloudy | rainy | foggy
  deriving DecidableEq

/-- Season enum of the `Environment` record. -/
inductive Season where
  | spring | summer | autumn | winter
  deriving DecidableEq

/-- Creature behavioural state machine states. -/
inductive CState where
  | hungry | full | searching | eating | breeding | dead
  deriving DecidableEq

/-- The `Food` record of the source (`type` is always `'tulip'`, omitted). -/
structure Food where
  id : Nat
  position : Vec3
  isAvailable : Bool
  nutritionValue : ℚ
  respawnTime : ℚ
  lastEaten : ℚ
  deriving DecidableEq

/-- The `Creature` record of the source (`type` is always `'goose'`, omitted). -/
structure Creature where
  id : Nat
  position : Vec3
  rotation : Vec3
  scale : Vec3
  health : ℚ
  energy : ℚ
  isMoving : Bool
  isIdle : Bool
  idleAnimation : ℚ
  vision : ℚ
  hunger : ℚ
  speed : ℚ
  intelligence : ℚ
  state : CState
  targetPosition : Option Vec3
  targetFoodId : Option Nat
  lastStateChange : ℚ
  lastBreedingTime : ℚ
  breedingCooldown : ℚ
  isDead : Bool
  deriving DecidableEq

/-- The `Environment` record. -/
structure Env where
  temperature : ℚ
  humidity : ℚ
  lightLevel : ℚ
  timeOfDay : TimeOfDay
  weather : Weather
  season : Season
  deriving DecidableEq

/-- The store state (`SimulationState` data fields).  `nextId` models the
fresh-id supply of `generateId`. -/
structure SimState where
  creatures : List Creature
  food : List Food
  environment : Env
  gameTime : ℚ
  isPaused : Bool
  speed : ℚ
  selectedEntity : Option Nat
  nextId : Nat
  deriving DecidableEq

/-- `updateCreature(id, updates)`: merge `updates` into every creature whose id
matches (ids are unique in practice); unknown ids are a silent no-op. -/
def updateCreature (s : SimState) (i : Nat) (f : Creature → Creature) : SimState :=
  { s with creatures := s.creatures.map (fun c => if c.id = i then f c else c) }

/-- `updateFood(id, updates)`. -/
def updateFood (s : SimState) (i : Nat) (f : Food → Food) : SimState :=
  { s with food := s.food.map (fun g => if g.id = i then f g else g) }

/-- `addCreature(creature)`: append with a freshly generated id. -/
def addCreature (s : SimState) (mk : Nat → Creature) : SimState :=
  { s with creatures := s.creatures ++ [mk s.nextId], nextId := s.nextId + 1 }

/-- `addFood(food)`: append with a freshly generated id. -/
def addFood (s : SimState) (mk : Nat → Food) : SimState :=
  { s with food := s.food ++ [mk s.nextId], nextId := s.nextId + 1 }

/-- `advanceTime(deltaTime)`. -/
def advanceTime (s : SimState) (d : ℚ) : SimState :=
  { s with gameTime := s.gameTime + d }

/-- `updateEnvironment(updates)`. -/
def updateEnvironment (s : SimState) (f : Env → Env) : SimState :=
  { s with environment := f s.environment }

/-- Truncation toward zero, the rounding of the JS `%` operator's quotient. -/
def jsTrunc (q : ℚ) : ℤ :=
  if 0 ≤ q then ⌊q⌋ else ⌈q⌉

/-- The JS remainder operator `a % b` on doubles (sign of the dividend). -/
def jsMod (a b : ℚ) : ℚ :=
  a - b * (jsTrunc (a / b) : ℤ)

/-- One `Math.random()`-roll bundle for one creature in one tick: the wander
roll and offsets, and the offspring jitters consumed on breeding completion. -/
structure CreatureRand where
  moveRoll : ℚ
  moveDx : ℚ
  moveDz : ℚ
  babyDx : ℚ
  babyDz : ℚ
  babyVision : ℚ
  babyHunger : ℚ
  babySpeed : ℚ
  babyIntel : ℚ
  deriving DecidableEq

/-- All stochastic inputs of one `simulate()` call: per-creature draws (indexed
by position in the start-of-tick creature list), the food-spawn draws, and the
`Math.sqrt` primitive used by movement integration. -/
structure Oracle where
  creatureRand : Nat → CreatureRand
  foodRoll : ℚ
  foodX : ℚ
  foodZ : ℚ
  sqrtFn : ℚ → ℚ

/-- The loop-local mutable variables of the per-creature block of `simulate`:
`newState`, `newTargetPosition`, `isMoving`, `newPosition`. -/
structure Locals where
  newState : CState
  newTargetPosition : Option Vec3
  isMoving : Bool
  newPosition : Vec3
  deriving DecidableEq

/-- `Math.max(-wallBoundary, Math.min(wallBoundary, v))` with `wallBoundary = 49`. -/
def clampWall (v : ℚ) : ℚ :=
  max (-49) (min 49 v)

/-- The random-wander block, shared shape of the three occurrences in the
source (probability / offset magnitude differ per call site). -/
def wander (r : CreatureRand) (prob mag : ℚ) (c : Creature) (l : Locals) : Locals :=
  if r.moveRoll < prob then
    { l with
      newTargetPosition := some
        ⟨clampWall (c.position.x + (r.moveDx - 1/2) * mag), 1/2,
         clampWall (c.position.z + (r.moveDz - 1/2) * mag)⟩,
      isMoving := true }
  else l

/-- The axis-aligned box test `dx <= visionRange && dz <= visionRange`. -/
def inBox (vr : ℚ) (p q : Vec3) : Bool :=
  decide (|p.x - q.x| ≤ vr) && decide (|p.z - q.z| ≤ vr)

/-- The `lastStateChange` store write of the hunger-driven base transition. -/
def lastStateUpd (snap : SimState) : Creature → Creature := fun x =>
  { x with lastStateChange := snap.gameTime }

/-- The food write marking an item consumed. -/
def eatenFoodUpd (snap : SimState) : Food → Food := fun x =>
  { x with isAvailable := false, lastEaten := snap.gameTime }

/-- The creature write of the immediate-eat path of the hungry state. -/
def eatUpd (snap : SimState) : Creature → Creature := fun x =>
  { x with hunger := 100, state := CState.full, lastStateChange := snap.gameTime,
           targetFoodId := none }

/-- The creature write finishing a 2000-time-unit eat. -/
def finishEatingUpd (snap : SimState) : Creature → Creature := fun x =>
  { x with lastStateChange := snap.gameTime, targetFoodId := none,
           state := CState.full, hunger := 100 }

/-- The creature write reverting to hungry when the targeted food vanished. -/
def revertHungryUpd : Creature → Creature := fun x =>
  { x with targetFoodId := none, state := CState.hungry }

/-- The creature write on arrival at a food target. -/
def arriveEatingUpd (snap : SimState) : Creature → Creature := fun x =>
  { x with lastStateChange := snap.gameTime, state := CState.eating }

/-- The food write of the respawn pass. -/
def respawnUpd : Food → Food := fun x =>
  { x with isAvailable := true }

/-- Hunger-driven base transition (`hungry`→`full` when hunger > 50,
`full`→`hungry` when hunger ≤ 50), with its `lastStateChange` store write. -/
def baseTransition (snap : SimState) (c : Creature) (l : Locals) (cur : SimState) :
    Locals × SimState :=
  if c.hunger > 50 ∧ c.state = CState.hungry then
    ({ l with newState := CState.full }, updateCreature cur c.id (lastStateUpd snap))
  else if c.hunger ≤ 50 ∧ c.state = CState.full then
    ({ l with newState := CState.hungry }, updateCreature cur c.id (lastStateUpd snap))
  else (l, cur)

/-- Hungry-state behaviour: forage among the start-of-tick available food in
the vision-scaled box, eat the first hit immediately, else random wander. -/
def hungryBehavior (snap : SimState) (r : CreatureRand) (c : Creature) (l : Locals)
    (cur : SimState) : Locals × SimState :=
  if c.hunger < 50 then
    match ((snap.food.filter (fun f => f.isAvailable)).filter
        (fun f => inBox (5 * (c.vision / 100)) f.position c.position)) with
    | nearestFood :: _ =>
        ({ l with newState := CState.full },
         updateCreature (updateFood cur nearestFood.id (eatenFoodUpd snap))
           c.id (eatUpd snap))
    | [] => (wander r (8/100) 15 c l, cur)
  else (wander r (6/100) 12 c l, cur)

/-- Eating-state behaviour: after 2000 time units become full (hunger 100) and
consume the targeted food; if the target vanished or is unavailable, revert to
hungry. -/
def eatingBehavior (snap : SimState) (c : Creature) (l : Locals) (cur : SimState) :
    Locals × SimState :=
  match c.targetFoodId with
  | some fid =>
      match snap.food.find? (fun f => decide (f.id = fid)) with
      | some targetFood =>
          if targetFood.isAvailable then
            if snap.gameTime - c.lastStateChange ≥ 2000 then
              ({ l with newState := CState.full },
               updateFood (updateCreature cur c.id (finishEatingUpd snap))
                 targetFood.id (eatenFoodUpd snap))
            else ({ l with newState := CState.eating }, cur)
          else
            ({ l with newState := CState.hungry },
             updateCreature cur c.id revertHungryUpd)
      | none =>
          ({ l with newState := CState.hungry },
           updateCreature cur c.id revertHungryUpd)
  | none => (l, cur)

/-- The store write entering the breeding state. -/
def breedEnter (snap : SimState) : Creature → Creature := fun x =>
  { x with state := CState.breeding, lastStateChange := snap.gameTime,
           isMoving := false, targetPosition := none }

/-- Full-state behaviour: cooldown-gated partner search in the vision-scaled
box; both enter breeding, else random idle wander. -/
def fullBehavior (snap : SimState) (r : CreatureRand) (c : Creature) (l : Locals)
    (cur : SimState) : Locals × SimState :=
  if snap.gameTime - c.lastBreedingTime > c.breedingCooldown then
    match (snap.creatures.filter (fun other =>
        !(decide (other.id = c.id)) && !other.isDead &&
        decide (other.state = CState.full) &&
        inBox (5 * (c.vision / 100)) other.position c.position)) with
    | partner :: _ =>
        if snap.gameTime - partner.lastBreedingTime > partner.breedingCooldown then
          ({ l with newState := CState.breeding, isMoving := false,
                    newTargetPosition := none },
           updateCreature (updateCreature cur c.id (breedEnter snap))
             partner.id (breedEnter snap))
        else (l, cur)
    | [] => (wander r (4/100) 8 c l, cur)
  else (wander r (4/100) 8 c l, cur)

/-- The offspring record built on breeding completion (id filled by
`addCreature`). -/
def babyOf (snap : SimState) (r : CreatureRand) (c : Creature) : Nat → Creature :=
  fun i =>
    { id := i
      position := ⟨c.position.x + (r.babyDx - 1/2) * 2, 0,
                   c.position.z + (r.babyDz - 1/2) * 2⟩
      rotation := ⟨0, 0, 0⟩
      scale := ⟨7/10, 7/10, 7/10⟩
      health := 100
      energy := 100
      isMoving := false
      isIdle := true
      idleAnimation := 0
      vision := max 30 (min 90 (c.vision + (r.babyVision - 1/2) * 20))
      hunger := 50 + r.babyHunger * 20
      speed := max 20 (min 80 (c.speed + (r.babySpeed - 1/2) * 20))
      intelligence := max 10 (min 90 (c.intelligence + (r.babyIntel - 1/2) * 20))
      state := CState.hungry
      targetPosition := none
      targetFoodId := none
      lastStateChange := snap.gameTime
      lastBreedingTime := 0
      breedingCooldown := 10000
      isDead := false }

/-- The store write resetting a parent after breeding completion. -/
def breedReset (snap : SimState) : Creature → Creature := fun x =>
  { x with state := CState.full, lastStateChange := snap.gameTime,
           lastBreedingTime := snap.gameTime, isMoving := false,
           targetPosition := none }

/-- Breeding-state behaviour: after 3000 time units create one offspring,
reset this parent, and reset the partner re-derived by proximity from the
start-of-tick snapshot. -/
def breedingBehavior (snap : SimState) (r : CreatureRand) (c : Creature) (l : Locals)
    (cur : SimState) : Locals × SimState :=
  if snap.gameTime - c.lastStateChange ≥ 3000 then
    let cur2 := updateCreature (addCreature cur (babyOf snap r c)) c.id (breedReset snap)
    match snap.creatures.find? (fun p =>
        !(decide (p.id = c.id)) && !p.isDead && decide (p.state = CState.breeding) &&
        decide (|p.position.x - c.position.x| < 5) &&
        decide (|p.position.z - c.position.z| < 5)) with
    | some partner => (l, updateCreature cur2 partner.id (breedReset snap))
    | none => (l, cur2)
  else (l, cur)

/-- Dispatch on the possibly just-updated state (`else if` chain of the
source; `searching` and `dead` have no branch). -/
def dispatchState (snap : SimState) (r : CreatureRand) (c : Creature) (l : Locals)
    (cur : SimState) : Locals × SimState :=
  match l.newState with
  | CState.hungry => hungryBehavior snap r c l cur
  | CState.eating => eatingBehavior snap c l cur
  | CState.full => fullBehavior snap r c l cur
  | CState.breeding => breedingBehavior snap r c l cur
  | _ => (l, cur)

/-- Movement integration toward `newTargetPosition`: arrival below distance
0.5 (to `eating` when a food target is set), otherwise normalized step with
per-axis wall checks that cancel the target on a wall hit. -/
def movePhase (o : Oracle) (snap : SimState) (c : Creature) (l : Locals)
    (cur : SimState) : Locals × SimState :=
  match l.newTargetPosition with
  | some tgt =>
      let dx := tgt.x - c.position.x
      let dz := tgt.z - c.position.z
      let distance := o.sqrtFn (dx * dx + dz * dz)
      if distance < 1/2 then
        if c.targetFoodId.isSome then
          ({ l with newState := CState.eating, newTargetPosition := none,
                    isMoving := false },
           updateCreature cur c.id (arriveEatingUpd snap))
        else ({ l with newTargetPosition := none, isMoving := false }, cur)
      else
        let moveSpeed := c.speed / 100 * (1 * snap.speed)
        let proposedX := l.newPosition.x + dx / distance * moveSpeed
        let proposedZ := l.newPosition.z + dz / distance * moveSpeed
        let l1 :=
          if proposedX ≥ -49 ∧ proposedX ≤ 49 then
            { l with newPosition := { l.newPosition with x := proposedX } }
          else { l with newTargetPosition := none, isMoving := false }
        let l2 :=
          if proposedZ ≥ -49 ∧ proposedZ ≤ 49 then
            { l1 with newPosition := { l1.newPosition with z := proposedZ } }
          else { l1 with newTargetPosition := none, isMoving := false }
        (l2, cur)
  | none => (l, cur)

/-- The end-of-loop commit of all computed per-creature fields. -/
def commitCreature (c : Creature) (l : Locals) (idle hung : ℚ) :
    Creature → Creature := fun x =>
  { x with idleAnimation := idle, hunger := hung, state := l.newState,
           targetPosition := l.newTargetPosition, isMoving := l.isMoving,
           position := l.newPosition,
           rotation := ⟨c.rotation.x, c.rotation.y, c.rotation.z⟩ }

/-- The death write when hunger reaches 0. -/
def deathUpdate (snap : SimState) : Creature → Creature := fun x =>
  { x with isDead := true, state := CState.dead, lastStateChange := snap.gameTime }

/-- The per-tick hunger decrement `deltaTime * 0.01`. -/
def hungerDecrease (snap : SimState) : ℚ :=
  (1 * snap.speed) * (1/100)

/-- The body of `state.creatures.forEach(creature => ...)` for one snapshot
creature `c`, acting on the evolving store `cur` while reading the start-of-
tick snapshot `snap`. -/
def simStepCreature (o : Oracle) (snap : SimState) (r : CreatureRand)
    (cur : SimState) (c : Creature) : SimState :=
  if c.isDead then cur
  else
    let newIdleAnimation := jsMod (c.idleAnimation + (1 * snap.speed) * (1/10)) 1
    let newHunger := max 0 (c.hunger - hungerDecrease snap)
    if newHunger = 0 ∧ c.hunger > 0 then
      updateCreature cur c.id (deathUpdate snap)
    else
      let p1 := baseTransition snap c ⟨c.state, c.targetPosition, c.isMoving, c.position⟩ cur
      let p2 := dispatchState snap r c p1.1 p1.2
      let p3 := movePhase o snap c p2.1 p2.2
      updateCreature p3.2 c.id (commitCreature c p3.1 newIdleAnimation newHunger)

/-- The creature `forEach` loop, threading the per-creature random index. -/
def creaturePass (o : Oracle) (snap : SimState) : List Creature → Nat → SimState → SimState
  | [], _, cur => cur
  | c :: rest, i, cur =>
      creaturePass o snap rest (i + 1) (simStepCreature o snap (o.creatureRand i) cur c)

/-- The food-respawn `forEach` loop: unavailable food whose respawn delay of
1500 time units has elapsed becomes available again. -/
def respawnPass (snap : SimState) : List Food → SimState → SimState
  | [], cur => cur
  | f :: rest, cur =>
      respawnPass snap rest
        (if ¬f.isAvailable ∧ snap.gameTime - f.lastEaten > 1500 then
          updateFood cur f.id respawnUpd
        else cur)

/-- The 2%-per-tick spontaneous food spawn at a random position inset from the
walls. -/
def foodSpawnPhase (o : Oracle) (cur : SimState) : SimState :=
  if o.foodRoll < 2/100 then
    addFood cur (fun i =>
      { id := i
        position := ⟨(o.foodX - 1/2) * 90, -(14/5), (o.foodZ - 1/2) * 90⟩
        isAvailable := true
        nutritionValue := 40
        respawnTime := 1500
        lastEaten := 0 })
  else cur

/-- `Math.floor((state.gameTime / 1000) % 4)`, the time-of-day slot. -/
def timeOfDaySlot (t : ℚ) : ℤ :=
  ⌊jsMod (t / 1000) 4⌋

/-- `timeOfDayMap[slot]` (the source indexes a 4-element array; the slot is
0..3 whenever game time is nonnegative). -/
def slotToTimeOfDay (s : ℤ) : TimeOfDay :=
  if s = 0 then TimeOfDay.morning
  else if s = 1 then TimeOfDay.afternoon
  else if s = 2 then TimeOfDay.evening
  else TimeOfDay.night

/-- The end-of-tick environment update: time-of-day and light level re-derived
from the snapshot game time. -/
def envPhase (snap : SimState) (cur : SimState) : SimState :=
  updateEnvironment cur (fun e =>
    { e with
      timeOfDay := slotToTimeOfDay (timeOfDaySlot snap.gameTime)
      lightLevel :=
        if timeOfDaySlot snap.gameTime = 0 then 80
        else if timeOfDaySlot snap.gameTime = 1 then 100
        else if timeOfDaySlot snap.gameTime = 2 then 60
        else 20 })

/-- One `simulate()` call: pause guard, clock advance, per-creature pass over
the start-of-tick snapshot, food respawn, spontaneous food spawn, environment
update. -/
def simulate (o : Oracle) (s : SimState) : SimState :=
  if s.isPaused then s
  else
    envPhase s
      (foodSpawnPhase o
        (respawnPass s s.food
          (creaturePass o s s.creatures 0 (advanceTime s (1 * s.speed)))))

/-- The `Math.random()` draws of one `spawnCreature()` call. -/
structure SpawnRand where
  posX : ℚ
  posZ : ℚ
  vision : ℚ
  hunger : ℚ
  speed : ℚ
  intel : ℚ
  deriving DecidableEq

/-- `getRandomPosition()`. -/
def getRandomPosition (r : SpawnRand) : Vec3 :=
  ⟨(r.posX - 1/2) * 20, 0, (r.posZ - 1/2) * 20⟩

/-- `spawnCreature()`: a randomized starter goose, hungry, never bred. -/
def spawnCreature (r : SpawnRand) (s : SimState) : SimState :=
  addCreature s (fun i =>
    { id := i
      position := getRandomPosition r
      rotation := ⟨0, 0, 0⟩
      scale := ⟨1, 1, 1⟩
      health := 100
      energy := 100
      isMoving := false
      isIdle := true
      idleAnimation := 0
      vision := 50 + r.vision * 30
      hunger := 60 + r.hunger * 30
      speed := 30 + r.speed * 40
      intelligence := 20 + r.intel * 60
      state := CState.hungry
      targetPosition := none
      targetFoodId := none
      lastStateChange := s.gameTime
      lastBreedingTime := 0
      breedingCooldown := 10000
      isDead := false })

/-- The fixed 30-entry tulip position list of `initializeFood`. -/
def tulipPositions : List (ℚ × ℚ × ℚ) :=
  [(3, -(14/5), 4), (4, -(14/5), 3), (2, -(14/5), 5), (-3, -(14/5), 6),
   (-4, -(14/5), 5), (-2, -(14/5), 4),
   (7, -(14/5), -3), (8, -(14/5), -2), (6, -(14/5), -4), (-7, -(14/5), -5),
   (-8, -(14/5), -4), (-6, -(14/5), -6),
   (0, -(14/5), 8), (1, -(14/5), 7), (-1, -(14/5), 9),
   (5, -(14/5), 6), (6, -(14/5), 5), (4, -(14/5), 7), (-5, -(14/5), 8),
   (-6, -(14/5), 7), (-4, -(14/5), 6),
   (9, -(14/5), -1), (10, -(14/5), 0), (8, -(14/5), -2), (-9, -(14/5), -3),
   (-10, -(14/5), -2), (-8, -(14/5), -4),
   (2, -(14/5), 10), (3, -(14/5), 9), (1, -(14/5), 11)]

/-- One seed insertion of `initializeFood` (`get().addFood({...})` in the
`tulipPositions.forEach`). -/
def seedStep (st : SimState) (t : ℚ × ℚ × ℚ) : SimState :=
  addFood st (fun i =>
    { id := i
      position := ⟨t.1, t.2.1, t.2.2⟩
      isAvailable := true
      nutritionValue := 40
      respawnTime := 1500
      lastEaten := 0 })

/-- `initializeFood()`: a no-op when food already exists, else seed the 30
fixed tulip positions. -/
def initializeFood (s : SimState) : SimState :=
  if s.food.length > 0 then s
  else tulipPositions.foldl seedStep s

/-! ### Concrete states and oracles used by the example-based theorems -/

/-- The initial environment record of the store. -/
def env0 : Env :=
  ⟨22, 60, 80, TimeOfDay.morning, Weather.sunny, Season.spring⟩

/-- A standard goose used to build concrete scenarios. -/
def mkGoose (i : Nat) (px pz : ℚ) (st : CState) (hung : ℚ) (lsc : ℚ) : Creature :=
  { id := i, position := ⟨px, 0, pz⟩, rotation := ⟨0, 0, 0⟩, scale := ⟨1, 1, 1⟩,
    health := 100, energy := 100, isMoving := false, isIdle := true,
    idleAnimation := 0, vision := 50, hunger := hung, speed := 50,
    intelligence := 50, state := st, targetPosition := none, targetFoodId := none,
    lastStateChange := lsc, lastBreedingTime := 0, breedingCooldown := 10000,
    isDead := false }

/-- An oracle whose rolls all miss their probability thresholds and whose
offspring jitters are the midpoint 1/2 (zero offset). -/
def quietOracle : Oracle :=
  { creatureRand := fun _ => ⟨1, 1, 1, 1/2, 1/2, 1/2, 1/2, 1/2, 1/2⟩
    foodRoll := 1, foodX := 0, foodZ := 0, sqrtFn := fun _ => 0 }

/-- Like `quietOracle`, but the offspring x-jitter draw is 0.9, displacing the
offspring by `(0.9 - 0.5) * 2 = 0.8` from its parent. -/
def wallOracle : Oracle :=
  { creatureRand := fun _ => ⟨1, 1, 1, 9/10, 1/2, 1/2, 1/2, 1/2, 1/2⟩
    foodRoll := 1, foodX := 0, foodZ := 0, sqrtFn := fun _ => 0 }

/-- Two breeding geese at distance (1,1), both 3000 time units into breeding
at game time 3000. -/
def breedPairState : SimState :=
  { creatures := [mkGoose 0 0 0 CState.breeding 80 0, mkGoose 1 1 1 CState.breeding 80 0]
    food := [], environment := env0, gameTime := 3000, isPaused := false,
    speed := 1, selectedEntity := none, nextId := 2 }

/-- The foraging scenario of the spec: a hungry goose with hunger 10 and
vision 50 at the origin, one available food item at offset (2, 1). -/
def eatScenarioState : SimState :=
  { creatures := [mkGoose 0 0 0 CState.hungry 10 0]
    food := [{ id := 5, position := ⟨2, -(14/5), 1⟩, isAvailable := true,
               nutritionValue := 40, respawnTime := 1500, lastEaten := 0 }]
    environment := env0, gameTime := 1000, isPaused := false, speed := 1,
    selectedEntity := none, nextId := 6 }

/-- A lone breeding goose standing exactly at the +x wall (x = 49, in
bounds), 3000 time units into breeding. -/
def wallParentState : SimState :=
  { creatures := [mkGoose 0 49 0 CState.breeding 80 0]
    food := [], environment := env0, gameTime := 3000, isPaused := false,
    speed := 1, selectedEntity := none, nextId := 1 }

/-- A paused store holding a goose and a food item. -/
def pausedState : SimState :=
  { creatures := [mkGoose 0 3 4 CState.hungry 42 100]
    food := [{ id := 7, position := ⟨1, -(14/5), 1⟩, isAvailable := false,
               nutritionValue := 40, respawnTime := 1500, lastEaten := 20 }]
    environment := env0, gameTime := 5000, isPaused := true, speed := 3,
    selectedEntity := some 0, nextId := 8 }

/-- A goose one tick from starvation (hunger 0.01 at speed 1). -/
def starveState : SimState :=
  { creatures := [mkGoose 0 0 0 CState.hungry (1/100) 0]
    food := [], environment := env0, gameTime := 500, isPaused := false,
    speed := 1, selectedEntity := none, nextId := 1 }

/-- A dead goose alongside a living full one. -/
def deadGooseState : SimState :=
  { creatures := [{ mkGoose 0 2 2 CState.dead 0 0 with isDead := true },
                  mkGoose 1 0 0 CState.full 80 0]
    food := [], environment := env0, gameTime := 4000, isPaused := false,
    speed := 1, selectedEntity := none, nextId := 2 }

/-- An empty store. -/
def emptyState : SimState :=
  { creatures := [], food := [], environment := env0, gameTime := 0,
    isPaused := false, speed := 1, selectedEntity := none, nextId := 0 }

/-- Lookup of the (first) creature record with a given id. -/
def findC (s : SimState) (j : Nat) : Option Creature :=
  s.creatures.find? (fun d => decide (d.id = j))

/-- Lookup of the (first) food record with a given id. -/
def findF (s : SimState) (j : Nat) : Option Food :=
  s.food.find? (fun g => decide (g.id = j))

/-- The `isDead` flag of the creature record with a given id. -/
def deadFlag (s : SimState) (j : Nat) : Option Bool :=
  (findC s j).map Creature.isDead

/-- The death condition of the per-creature pass: the decayed hunger clamps
to exactly 0 from a strictly positive value. -/
def deathCond (snap : SimState) (c : Creature) : Prop :=
  max 0 (c.hunger - hungerDecrease snap) = 0 ∧ c.hunger > 0

/-- The death condition is decidable (it is rational arithmetic). -/
instance (snap : SimState) (c : Creature) : Decidable (deathCond snap c) := by
  unfold deathCond
  infer_instance

/-- No creature holds a food target. -/
def NoTargets (s : SimState) : Prop :=
  ∀ c ∈ s.creatures, c.targetFoodId = none

/-- Every eating creature of `cur` descends from an eating creature of the
snapshot with the same id. -/
def EatingFrom (snap cur : SimState) : Prop :=
  ∀ c' ∈ cur.creatures, c'.state = CState.eating →
    ∃ c ∈ snap.creatures, c.id = c'.id ∧ c.state = CState.eating

/-- Every creature's hunger lies in [0, 100]. -/
def HungerOK (s : SimState) : Prop :=
  ∀ c ∈ s.creatures, 0 ≤ c.hunger ∧ c.hunger ≤ 100

/-- Every creature sits within ±50 on both horizontal axes, and those with
ids below `n0` (the pre-existing ones) within the ±49 wall. -/
def PosOK (n0 : Nat) (s : SimState) : Prop :=
  ∀ c ∈ s.creatures,
    |c.position.x| ≤ 50 ∧ |c.position.z| ≤ 50 ∧
    (c.id < n0 → |c.position.x| ≤ 49 ∧ |c.position.z| ≤ 49)

/-- Across the creature pass, the record of snapshot food `f` is either
untouched or consumed this tick (with `lastEaten` stamped to the snapshot
game time) — consumption only from an available record. -/
def FoodTracked (snap : SimState) (f : Food) (cur : SimState) : Prop :=
  findF cur f.id = some f ∨
  (f.isAvailable = true ∧ findF cur f.id = some (eatenFoodUpd snap f))

/-- After the whole step, food `f` is untouched, consumed this tick, or
respawned this tick — respawn only from an unavailable record whose 1500-unit
delay has elapsed. -/
def FoodFinal (snap : SimState) (f : Food) (cur : SimState) : Prop :=
  FoodTracked snap f cur ∨
  (f.isAvailable = false ∧ snap.gameTime - f.lastEaten > 1500 ∧
    findF cur f.id = some { f with isAvailable := true })

/-- A `Math.random()` draw: a value in [0, 1). -/
def InUnit (q : ℚ) : Prop :=
  0 ≤ q ∧ q < 1

/-- Iterated simulation steps under a per-step oracle sequence. -/
def iterSim (os : Nat → Oracle) : Nat → SimState → SimState
  | 0, s => s
  | n + 1, s => iterSim os n (simulate (os n) s)

-- THEOREMS

/-! Constructor disequalities of `CState`, registered for `simp`/`norm_num`
evaluation of concrete scenarios. -/

@[simp] theorem CState.hungry_ne_full : CState.hungry ≠ CState.full := by decide

@[simp] theorem CState.hungry_ne_searching : CState.hungry ≠ CState.searching := by decide

@[simp] theorem CState.hungry_ne_eating : CState.hungry ≠ CState.eating := by decide

@[simp] theorem CState.hungry_ne_breeding : CState.hungry ≠ CState.breeding := by decide

@[simp] theorem CState.hungry_ne_dead : CState.hungry ≠ CState.dead := by decide

@[simp] theorem CState.full_ne_hungry : CState.full ≠ CState.hungry := by decide

@[simp] theorem CState.full_ne_searching : CState.full ≠ CState.searching := by decide

@[simp] theorem CState.full_ne_eating : CState.full ≠ CState.eating := by decide

@[simp] theorem CState.full_ne_breeding : CState.full ≠ CState.breeding := by decide

@[simp] theorem CState.full_ne_dead : CState.full ≠ CState.dead := by decide

@[simp] theorem CState.searching_ne_hungry : CState.searching ≠ CState.hungry := by decide

@[simp] theorem CState.searching_ne_full : CState.searching ≠ CState.full := by decide

@[simp] theorem CState.searching_ne_eating : CState.searching ≠ CState.eating := by decide

@[simp] theorem CState.searching_ne_breeding : CState.searching ≠ CState.breeding := by decide

@[simp] theorem CState.searching_ne_dead : CState.searching ≠ CState.dead := by decide

@[simp] theorem CState.eating_ne_hungry : CState.eating ≠ CState.hungry := by decide

@[simp] theorem CState.eating_ne_full : CState.eating ≠ CState.full := by decide

@[simp] theorem CState.eating_ne_searching : CState.eating ≠ CState.searching := by decide

@[simp] theorem CState.eating_ne_breeding : CState.eating ≠ CState.breeding := by decide

@[simp] theorem CState.eating_ne_dead : CState.eating ≠ CState.dead := by decide

@[simp] theorem CState.breeding_ne_hungry : CState.breeding ≠ CState.hungry := by decide

@[simp] theorem CState.breeding_ne_full : CState.breeding ≠ CState.full := by decide

@[simp] theorem CState.breeding_ne_searching : CState.breeding ≠ CState.searching := by decide

@[simp] theorem CState.breeding_ne_eating : CState.breeding ≠ CState.eating := by decide

@[simp] theorem CState.breeding_ne_dead : CState.breeding ≠ CState.dead := by decide

@[simp] theorem CState.dead_ne_hungry : CState.dead ≠ CState.hungry := by decide

@[simp] theorem CState.dead_ne_full : CState.dead ≠ CState.full := by decide

@[simp] theorem CState.dead_ne_searching : CState.dead ≠ CState.searching := by decide

@[simp] theorem CState.dead_ne_eating : CState.dead ≠ CState.eating := by decide

@[simp] theorem CState.dead_ne_breeding : CState.dead ≠ CState.breeding := by decide

/-- Helper for C9: the seed fold appends one available food record per listed
position, in order. -/
theorem seedFold_food_proj (l : List (ℚ × ℚ × ℚ)) (s : SimState) :
    ((l.foldl seedStep s).food).map (fun f => (f.position, f.isAvailable)) =
      s.food.map (fun f => (f.position, f.isAvailable)) ++
        l.map (fun t => ((⟨t.1, t.2.1, t.2.2⟩ : Vec3), true)) := by
  induction l generalizing s with
  | nil => simp
  | cons t rest ih =>
      simp only [List.foldl_cons, List.map_cons, ih, seedStep, addFood, List.map_append]
      simp

/-- C8: when the pause flag is set, `simulate` is the identity: the clock does
not advance and creatures, food, environment, speed and selection are all left
exactly as they were. -/
theorem pausedNoOp (o : Oracle) (s : SimState) (h : s.isPaused = true) :
    simulate o s = s := by
  simp [simulate, h]

/-- Witness for C8 at a concrete paused store. -/
theorem pausedNoOp_witness : simulate quietOracle pausedState = pausedState :=
  pausedNoOp quietOracle pausedState rfl

/-- C9: the seed-food operation is idempotent — with food present it inserts
nothing, so two invocations equal one — and on an empty food list it inserts
exactly 30 available food items at the fixed tulip position list. -/
theorem initializeFoodIdempotent (s : SimState) :
    initializeFood (initializeFood s) = initializeFood s ∧
    (s.food ≠ [] → initializeFood s = s) ∧
    (s.food = [] →
      (initializeFood s).food.length = 30 ∧
      ((initializeFood s).food.map (fun f => (f.position, f.isAvailable)) =
        tulipPositions.map (fun t => ((⟨t.1, t.2.1, t.2.2⟩ : Vec3), true)))) := by
  have hlen : ∀ s' : SimState, ((tulipPositions.foldl seedStep s').food).length =
      s'.food.length + 30 := by
    intro s'
    have h := congrArg List.length (seedFold_food_proj tulipPositions s')
    simpa [tulipPositions] using h
  refine ⟨?_, ?_, ?_⟩
  · by_cases h : s.food.length > 0
    · simp [initializeFood, h]
    · have hpos : (List.foldl seedStep s tulipPositions).food.length > 0 := by
        have := hlen s; omega
      simp [initializeFood, h, hpos]
  · intro hne
    have : s.food.length > 0 := by
      cases hfe : s.food with
      | nil => exact absurd hfe hne
      | cons a t => simp [hfe]
    simp [initializeFood, this]
  · intro he
    have hz : ¬ s.food.length > 0 := by simp [he]
    constructor
    · simp [initializeFood, hz, hlen s, he]
    · have h := seedFold_food_proj tulipPositions s
      simp [initializeFood, hz, he] at h ⊢
      exact h

/-- Witness for C9 at concrete stores: seeding an empty store yields 30 food
items, and re-invoking the operation afterwards changes nothing. -/
theorem initializeFoodIdempotent_witness :
    (initializeFood emptyState).food.length = 30 ∧
    initializeFood (initializeFood emptyState) = initializeFood emptyState :=
  ⟨((initializeFoodIdempotent emptyState).2.2 rfl).1,
   (initializeFoodIdempotent emptyState).1⟩

/-- C1 (failing input): two breeding-eligible parents whose breeding duration
has elapsed.  One `simulate` step adds TWO offspring (ids 2 and 3), not
exactly one, and afterwards parent 1 is still in `breeding` rather than reset
to `full` (the mid-loop reset to `full` is overwritten by the end-of-loop
commit of its own pass).  `lastBreedingTime` is set for both parents. -/
theorem breedingCompletionDoubleOffspring :
    (simulate quietOracle breedPairState).creatures.length = 4 ∧
    ((simulate quietOracle breedPairState).creatures.map
        (fun c => (c.id, c.state, c.lastBreedingTime))) =
      [(0, CState.full, 3000), (1, CState.breeding, 3000),
       (2, CState.hungry, 0), (3, CState.hungry, 0)] := by
  norm_num [simulate, creaturePass, simStepCreature, baseTransition, dispatchState,
    hungryBehavior, fullBehavior, breedingBehavior, eatingBehavior, movePhase, wander,
    inBox, clampWall, updateCreature, updateFood, addCreature, addFood, advanceTime,
    updateEnvironment, envPhase, foodSpawnPhase, respawnPass, timeOfDaySlot, jsMod,
    jsTrunc, commitCreature, breedEnter, breedReset, babyOf, deathUpdate,
    lastStateUpd, eatenFoodUpd, eatUpd, finishEatingUpd, revertHungryUpd,
    arriveEatingUpd, respawnUpd,
    hungerDecrease, List.find?, abs_of_nonneg, mkGoose, env0, quietOracle, breedPairState]

/-- C3 (failing input): the spec's own scenario — hunger 10, vision 50,
available food at offset (2, 1).  The step consumes the food
(isAvailable = false, lastEaten = now), ends in state `full` with the food
target cleared, but the committed hunger is the decayed 9.99, not 100: the
mid-loop `hunger := 100` write is overwritten by the end-of-loop commit. -/
theorem eatClobbersHunger :
    ((simulate quietOracle eatScenarioState).creatures.map
        (fun c => (c.state, c.hunger, c.targetFoodId))) =
      [(CState.full, 999/100, none)] ∧
    ((simulate quietOracle eatScenarioState).food.map
        (fun f => (f.isAvailable, f.lastEaten))) = [(false, 1000)] ∧
    ¬ ∃ c ∈ (simulate quietOracle eatScenarioState).creatures, c.hunger = 100 := by
  norm_num [simulate, creaturePass, simStepCreature, baseTransition, dispatchState,
    hungryBehavior, fullBehavior, breedingBehavior, eatingBehavior, movePhase, wander,
    inBox, clampWall, updateCreature, updateFood, addCreature, addFood, advanceTime,
    updateEnvironment, envPhase, foodSpawnPhase, respawnPass, timeOfDaySlot, jsMod,
    jsTrunc, commitCreature, breedEnter, breedReset, babyOf, deathUpdate,
    lastStateUpd, eatenFoodUpd, eatUpd, finishEatingUpd, revertHungryUpd,
    arriveEatingUpd, respawnUpd,
    hungerDecrease, List.find?, abs_of_nonneg, mkGoose, env0, quietOracle, eatScenarioState]

/-- C4 (counterexample): all creatures of `wallParentState` start within the
±49 wall, yet after one `simulate` step the newly created offspring sits at
x = 49.8, beyond the wall: offspring spawn positions are not clamped. -/
theorem offspringBeyondWall :
    (∀ c ∈ wallParentState.creatures, |c.position.x| ≤ 49 ∧ |c.position.z| ≤ 49) ∧
    ∃ c ∈ (simulate wallOracle wallParentState).creatures, 49 < |c.position.x| := by
  norm_num [simulate, creaturePass, simStepCreature, baseTransition, dispatchState,
    hungryBehavior, fullBehavior, breedingBehavior, eatingBehavior, movePhase, wander,
    inBox, clampWall, updateCreature, updateFood, addCreature, addFood, advanceTime,
    updateEnvironment, envPhase, foodSpawnPhase, respawnPass, timeOfDaySlot, jsMod,
    jsTrunc, commitCreature, breedEnter, breedReset, babyOf, deathUpdate,
    lastStateUpd, eatenFoodUpd, eatUpd, finishEatingUpd, revertHungryUpd,
    arriveEatingUpd, respawnUpd,
    hungerDecrease, List.find?, abs_of_nonneg, mkGoose, env0, wallOracle, wallParentState]

/-! ### Generic keyed-lookup lemmas -/

/-- `find?` by key commutes with mapping a key-preserving function. -/
theorem find?_key_map {α : Type} (key : α → Nat) (g : α → α)
    (hg : ∀ x, key (g x) = key x) (l : List α) (j : Nat) :
    (l.map g).find? (fun d => decide (key d = j)) =
      (l.find? (fun d => decide (key d = j))).map g := by
  induction l with
  | nil => rfl
  | cons a t ih =>
      simp only [List.map_cons, List.find?, hg a]
      cases h : decide (key a = j) <;> simp [h, ih]

/-- With pairwise distinct keys, `find?` by a member's key returns exactly
that member. -/
theorem find?_key_eq_of_mem {α : Type} (key : α → Nat) (l : List α) (c : α)
    (hnd : (l.map key).Nodup) (hc : c ∈ l) :
    l.find? (fun d => decide (key d = key c)) = some c := by
  induction l with
  | nil => cases hc
  | cons a t ih =>
      rw [List.map_cons, List.nodup_cons] at hnd
      rcases List.mem_cons.mp hc with rfl | hct
      · simp [List.find?]
      · have hne : key a ≠ key c := by
          intro he
          exact hnd.1 (he ▸ List.mem_map_of_mem key hct)
        simp only [List.find?]
        rw [show decide (key a = key c) = false by simpa using hne]
        exact ih hnd.2 hct

/-- With pairwise distinct keys, two members sharing a key are equal. -/
theorem key_inj_of_nodup {α : Type} (key : α → Nat) (l : List α) (a b : α)
    (hnd : (l.map key).Nodup) (ha : a ∈ l) (hb : b ∈ l) (hk : key a = key b) :
    a = b := by
  induction l with
  | nil => cases ha
  | cons x t ih =>
      rw [List.map_cons, List.nodup_cons] at hnd
      rcases List.mem_cons.mp ha with rfl | hat
      · rcases List.mem_cons.mp hb with rfl | hbt
        · rfl
        · exact absurd (hk ▸ List.mem_map_of_mem key hbt) hnd.1
      · rcases List.mem_cons.mp hb with rfl | hbt
        · exact absurd (hk ▸ List.mem_map_of_mem key hat) hnd.1
        · exact ih hnd.2 hat hbt

/-- `find?` over an append resolves in the left list when it hits there. -/
theorem find?_append_of_isSome {α : Type} (p : α → Bool) (l₁ l₂ : List α)
    (h : (l₁.find? p).isSome) : (l₁ ++ l₂).find? p = l₁.find? p := by
  rw [List.find?_append]
  cases hl : l₁.find? p with
  | none => rw [hl] at h; cases h
  | some a => simp

/-! ### Lookup lemmas for the store operations -/

/-- Effect of `updateCreature` on the id lookup. -/
theorem findC_updateCreature (s : SimState) (i : Nat) (f : Creature → Creature)
    (hf : ∀ x, (f x).id = x.id) (j : Nat) :
    findC (updateCreature s i f) j =
      (findC s j).map (fun x => if x.id = i then f x else x) := by
  unfold findC updateCreature
  exact find?_key_map Creature.id _
    (fun x => by by_cases h : x.id = i <;> simp [h, hf x]) s.creatures j

/-- A found creature record carries the looked-up id. -/
theorem findC_some_id {s : SimState} {j : Nat} {x : Creature}
    (h : findC s j = some x) : x.id = j := by
  have := List.find?_some h
  simpa using this

/-- A found creature record is a member of the store. -/
theorem findC_mem {s : SimState} {j : Nat} {x : Creature}
    (h : findC s j = some x) : x ∈ s.creatures :=
  List.mem_of_find?_eq_some h

/-- With distinct creature ids, lookup of a member's id returns that member. -/
theorem findC_eq_of_mem (s : SimState) (c : Creature)
    (hnd : (s.creatures.map Creature.id).Nodup) (hc : c ∈ s.creatures) :
    findC s c.id = some c :=
  find?_key_eq_of_mem Creature.id s.creatures c hnd hc

/-- `updateCreature` of another id leaves a lookup unchanged. -/
theorem findC_updateCreature_ne (s : SimState) (i : Nat) (f : Creature → Creature)
    (hf : ∀ x, (f x).id = x.id) (j : Nat) (hij : i ≠ j) :
    findC (updateCreature s i f) j = findC s j := by
  rw [findC_updateCreature s i f hf j]
  cases h : findC s j with
  | none => rfl
  | some x =>
      have hx := findC_some_id h
      simp only [Option.map_some']
      rw [if_neg (by rw [hx]; exact fun he => hij he.symm)]

/-- `updateFood` does not touch creatures. -/
theorem findC_updateFood (s : SimState) (i : Nat) (g : Food → Food) (j : Nat) :
    findC (updateFood s i g) j = findC s j := rfl

/-- `addFood` does not touch creatures. -/
theorem findC_addFood (s : SimState) (mk : Nat → Food) (j : Nat) :
    findC (addFood s mk) j = findC s j := rfl

/-- `advanceTime` does not touch creatures. -/
theorem findC_advanceTime (s : SimState) (d : ℚ) (j : Nat) :
    findC (advanceTime s d) j = findC s j := rfl

/-- `updateEnvironment` does not touch creatures. -/
theorem findC_updateEnvironment (s : SimState) (g : Env → Env) (j : Nat) :
    findC (updateEnvironment s g) j = findC s j := rfl

/-- Appending a creature does not disturb an already-resolving lookup. -/
theorem findC_addCreature (s : SimState) (mk : Nat → Creature) (j : Nat)
    (h : (findC s j).isSome) : findC (addCreature s mk) j = findC s j := by
  unfold findC at *
  exact find?_append_of_isSome _ _ _ h

/-- Effect of `updateFood` on the id lookup. -/
theorem findF_updateFood (s : SimState) (i : Nat) (g : Food → Food)
    (hg : ∀ x, (g x).id = x.id) (j : Nat) :
    findF (updateFood s i g) j =
      (findF s j).map (fun x => if x.id = i then g x else x) := by
  unfold findF updateFood
  exact find?_key_map Food.id _
    (fun x => by by_cases h : x.id = i <;> simp [h, hg x]) s.food j

/-- A found food record carries the looked-up id. -/
theorem findF_some_id {s : SimState} {j : Nat} {x : Food}
    (h : findF s j = some x) : x.id = j := by
  have := List.find?_some h
  simpa using this

/-- With distinct food ids, lookup of a member's id returns that member. -/
theorem findF_eq_of_mem (s : SimState) (f : Food)
    (hnd : (s.food.map Food.id).Nodup) (hf : f ∈ s.food) :
    findF s f.id = some f :=
  find?_key_eq_of_mem Food.id s.food f hnd hf

/-- `updateFood` of another id leaves a lookup unchanged. -/
theorem findF_updateFood_ne (s : SimState) (i : Nat) (g : Food → Food)
    (hg : ∀ x, (g x).id = x.id) (j : Nat) (hij : i ≠ j) :
    findF (updateFood s i g) j = findF s j := by
  rw [findF_updateFood s i g hg j]
  cases h : findF s j with
  | none => rfl
  | some x =>
      have hx := findF_some_id h
      simp only [Option.map_some']
      rw [if_neg (by rw [hx]; exact fun he => hij he.symm)]

/-- `updateCreature` does not touch food. -/
theorem findF_updateCreature (s : SimState) (i : Nat) (f : Creature → Creature)
    (j : Nat) : findF (updateCreature s i f) j = findF s j := rfl

/-- `addCreature` does not touch food. -/
theorem findF_addCreature (s : SimState) (mk : Nat → Creature) (j : Nat) :
    findF (addCreature s mk) j = findF s j := rfl

/-- `advanceTime` does not touch food. -/
theorem findF_advanceTime (s : SimState) (d : ℚ) (j : Nat) :
    findF (advanceTime s d) j = findF s j := rfl

/-- `updateEnvironment` does not touch food. -/
theorem findF_updateEnvironment (s : SimState) (g : Env → Env) (j : Nat) :
    findF (updateEnvironment s g) j = findF s j := rfl

/-- Appending a food item does not disturb an already-resolving lookup. -/
theorem findF_addFood (s : SimState) (mk : Nat → Food) (j : Nat)
    (h : (findF s j).isSome) : findF (addFood s mk) j = findF s j := by
  unfold findF at *
  exact find?_append_of_isSome _ _ _ h

/-- `deadFlag` resolves exactly when the creature lookup does. -/
theorem deadFlag_isSome (s : SimState) (j : Nat) :
    (deadFlag s j).isSome = (findC s j).isSome := by
  cases h : findC s j <;> simp [deadFlag, h]

/-- An id- and isDead-preserving creature write preserves `deadFlag`. -/
theorem deadFlag_updateCreature (s : SimState) (i : Nat) (f : Creature → Creature)
    (hf : ∀ x, (f x).id = x.id) (hd : ∀ x, (f x).isDead = x.isDead) (j : Nat) :
    deadFlag (updateCreature s i f) j = deadFlag s j := by
  unfold deadFlag
  rw [findC_updateCreature s i f hf j]
  cases h : findC s j with
  | none => rfl
  | some x =>
      simp only [Option.map_some']
      by_cases hx : x.id = i <;> simp [hx, hd x]

/-- Appending a creature does not disturb a resolving `deadFlag`. -/
theorem deadFlag_addCreature (s : SimState) (mk : Nat → Creature) (j : Nat)
    (h : (findC s j).isSome) : deadFlag (addCreature s mk) j = deadFlag s j := by
  unfold deadFlag
  rw [findC_addCreature s mk j h]

/-! ### Shape lemmas: the possible store effects of each per-creature phase -/

/-- The base transition writes at most a `lastStateChange` update to `c`. -/
theorem baseTransition_snd (snap : SimState) (c : Creature) (l : Locals)
    (cur : SimState) :
    (baseTransition snap c l cur).2 = cur ∨
    (baseTransition snap c l cur).2 = updateCreature cur c.id (lastStateUpd snap) := by
  unfold baseTransition
  split_ifs <;> simp

/-- The base transition only ever sets `newState` to `full` or `hungry`. -/
theorem baseTransition_fst_state (snap : SimState) (c : Creature) (l : Locals)
    (cur : SimState) :
    (baseTransition snap c l cur).1.newState = CState.full ∨
    (baseTransition snap c l cur).1.newState = CState.hungry ∨
    (baseTransition snap c l cur).1.newState = l.newState := by
  unfold baseTransition
  split_ifs <;> simp

/-- The base transition leaves the other loop locals unchanged. -/
theorem baseTransition_fst_rest (snap : SimState) (c : Creature) (l : Locals)
    (cur : SimState) :
    (baseTransition snap c l cur).1.newTargetPosition = l.newTargetPosition ∧
    (baseTransition snap c l cur).1.isMoving = l.isMoving ∧
    (baseTransition snap c l cur).1.newPosition = l.newPosition := by
  unfold baseTransition
  split_ifs <;> simp

/-- `wander` leaves `newState` and `newPosition` unchanged. -/
theorem wander_fst (r : CreatureRand) (prob mag : ℚ) (c : Creature) (l : Locals) :
    (wander r prob mag c l).newState = l.newState ∧
    (wander r prob mag c l).newPosition = l.newPosition := by
  unfold wander
  split_ifs <;> simp

/-- The hungry behaviour either leaves the store alone or consumes one
snapshot-available food item and writes the immediate-eat creature update. -/
theorem hungryBehavior_snd (snap : SimState) (r : CreatureRand) (c : Creature)
    (l : Locals) (cur : SimState) :
    (hungryBehavior snap r c l cur).2 = cur ∨
    ∃ nf, nf ∈ snap.food ∧ nf.isAvailable = true ∧
      (hungryBehavior snap r c l cur).2 =
        updateCreature (updateFood cur nf.id (eatenFoodUpd snap)) c.id (eatUpd snap) := by
  unfold hungryBehavior
  split_ifs with h1
  · cases hm : (snap.food.filter (fun f => f.isAvailable)).filter
        (fun f => inBox (5 * (c.vision / 100)) f.position c.position) with
    | nil => left; rfl
    | cons nf rest =>
        right
        have hnf : nf ∈ (snap.food.filter (fun f => f.isAvailable)).filter
            (fun f => inBox (5 * (c.vision / 100)) f.position c.position) := by
          rw [hm]; exact List.mem_cons_self nf rest
        have h2 := (List.mem_filter.mp hnf).1
        have h3 := List.mem_filter.mp h2
        exact ⟨nf, h3.1, h3.2, rfl⟩
  · left; rfl

/-- The hungry behaviour only ever sets `newState` to `full`. -/
theorem hungryBehavior_fst (snap : SimState) (r : CreatureRand) (c : Creature)
    (l : Locals) (cur : SimState) :
    ((hungryBehavior snap r c l cur).1.newState = CState.full ∨
      (hungryBehavior snap r c l cur).1.newState = l.newState) ∧
    (hungryBehavior snap r c l cur).1.newPosition = l.newPosition := by
  unfold hungryBehavior
  split_ifs with h1
  · cases hm : (snap.food.filter (fun f => f.isAvailable)).filter
        (fun f => inBox (5 * (c.vision / 100)) f.position c.position) with
    | nil => exact ⟨Or.inr (wander_fst _ _ _ _ _).1, (wander_fst _ _ _ _ _).2⟩
    | cons nf rest => exact ⟨Or.inl rfl, rfl⟩
  · exact ⟨Or.inr (wander_fst _ _ _ _ _).1, (wander_fst _ _ _ _ _).2⟩

/-- A creature with no food target passes through the eating dispatch
untouched. -/
theorem eatingBehavior_none (snap : SimState) (c : Creature) (l : Locals)
    (cur : SimState) (hc : c.targetFoodId = none) :
    eatingBehavior snap c l cur = (l, cur) := by
  simp [eatingBehavior, hc]

/-- The eating behaviour either leaves the store alone, reverts the creature
to hungry, or finishes the meal consuming a snapshot-available food item. -/
theorem eatingBehavior_snd (snap : SimState) (c : Creature) (l : Locals)
    (cur : SimState) :
    (eatingBehavior snap c l cur).2 = cur ∨
    (eatingBehavior snap c l cur).2 = updateCreature cur c.id revertHungryUpd ∨
    ∃ tf, tf ∈ snap.food ∧ tf.isAvailable = true ∧
      (eatingBehavior snap c l cur).2 =
        updateFood (updateCreature cur c.id (finishEatingUpd snap))
          tf.id (eatenFoodUpd snap) := by
  unfold eatingBehavior
  cases htf : c.targetFoodId with
  | none => left; rfl
  | some fid =>
      dsimp only
      cases hft : snap.food.find? (fun f => decide (f.id = fid)) with
      | none => right; left; rfl
      | some tf =>
          dsimp only
          split_ifs with h1 h2
          · right; right
            exact ⟨tf, List.mem_of_find?_eq_some hft, h1, rfl⟩
          · left; rfl
          · right; left; rfl

/-- The full behaviour either leaves the store alone or writes the breeding
entry to `c` and to a snapshot partner that is non-dead and `full`. -/
theorem fullBehavior_snd (snap : SimState) (r : CreatureRand) (c : Creature)
    (l : Locals) (cur : SimState) :
    (fullBehavior snap r c l cur).2 = cur ∨
    ∃ p, p ∈ snap.creatures ∧ p.isDead = false ∧ p.state = CState.full ∧
      p.id ≠ c.id ∧
      (fullBehavior snap r c l cur).2 =
        updateCreature (updateCreature cur c.id (breedEnter snap))
          p.id (breedEnter snap) := by
  unfold fullBehavior
  split_ifs with h1
  · cases hm : snap.creatures.filter (fun other =>
        !(decide (other.id = c.id)) && !other.isDead &&
        decide (other.state = CState.full) &&
        inBox (5 * (c.vision / 100)) other.position c.position) with
    | nil => left; rfl
    | cons p rest =>
        dsimp only
        split_ifs with h2
        · right
          have hp : p ∈ snap.creatures.filter (fun other =>
              !(decide (other.id = c.id)) && !other.isDead &&
              decide (other.state = CState.full) &&
              inBox (5 * (c.vision / 100)) other.position c.position) := by
            rw [hm]; exact List.mem_cons_self p rest
          have hmem := (List.mem_filter.mp hp).1
          have hpred := (List.mem_filter.mp hp).2
          simp only [Bool.and_eq_true, Bool.not_eq_true', decide_eq_true_eq,
            decide_eq_false_iff_not] at hpred
          exact ⟨p, hmem, hpred.1.1.2, hpred.1.2, hpred.1.1.1, rfl⟩
        · left; rfl
  · left; rfl

/-- The full behaviour only ever sets `newState` to `breeding`. -/
theorem fullBehavior_fst (snap : SimState) (r : CreatureRand) (c : Creature)
    (l : Locals) (cur : SimState) :
    ((fullBehavior snap r c l cur).1.newState = CState.breeding ∨
      (fullBehavior snap r c l cur).1.newState = l.newState) ∧
    (fullBehavior snap r c l cur).1.newPosition = l.newPosition := by
  unfold fullBehavior
  split_ifs with h1
  · cases hm : snap.creatures.filter (fun other =>
        !(decide (other.id = c.id)) && !other.isDead &&
        decide (other.state = CState.full) &&
        inBox (5 * (c.vision / 100)) other.position c.position) with
    | nil => exact ⟨Or.inr (wander_fst _ _ _ _ _).1, (wander_fst _ _ _ _ _).2⟩
    | cons p rest =>
        dsimp only
        split_ifs with h2
        · exact ⟨Or.inl rfl, rfl⟩
        · exact ⟨Or.inr rfl, rfl⟩
  · exact ⟨Or.inr (wander_fst _ _ _ _ _).1, (wander_fst _ _ _ _ _).2⟩

/-- The breeding behaviour either leaves the store alone, or adds the
offspring and resets `c` — and possibly also a re-derived snapshot partner
that is non-dead, in `breeding`, and distinct from `c`. -/
theorem breedingBehavior_snd (snap : SimState) (r : CreatureRand) (c : Creature)
    (l : Locals) (cur : SimState) :
    (breedingBehavior snap r c l cur).2 = cur ∨
    (breedingBehavior snap r c l cur).2 =
      updateCreature (addCreature cur (babyOf snap r c)) c.id (breedReset snap) ∨
    ∃ p, p ∈ snap.creatures ∧ p.isDead = false ∧ p.state = CState.breeding ∧
      p.id ≠ c.id ∧
      (breedingBehavior snap r c l cur).2 =
        updateCreature
          (updateCreature (addCreature cur (babyOf snap r c)) c.id (breedReset snap))
          p.id (breedReset snap) := by
  unfold breedingBehavior
  split_ifs with h1
  · cases hp : snap.creatures.find? (fun p =>
        !(decide (p.id = c.id)) && !p.isDead && decide (p.state = CState.breeding) &&
        decide (|p.position.x - c.position.x| < 5) &&
        decide (|p.position.z - c.position.z| < 5)) with
    | none => right; left; rfl
    | some p =>
        right; right
        have hpred := List.find?_some hp
        simp only [Bool.and_eq_true, Bool.not_eq_true', decide_eq_true_eq,
            decide_eq_false_iff_not] at hpred
        exact ⟨p, List.mem_of_find?_eq_some hp, hpred.1.1.1.2, hpred.1.1.2,
          hpred.1.1.1.1, rfl⟩
  · left; rfl

/-- The breeding behaviour leaves the loop locals unchanged. -/
theorem breedingBehavior_fst (snap : SimState) (r : CreatureRand) (c : Creature)
    (l : Locals) (cur : SimState) :
    (breedingBehavior snap r c l cur).1 = l := by
  unfold breedingBehavior
  split_ifs with h1
  · cases hp : snap.creatures.find? (fun p =>
        !(decide (p.id = c.id)) && !p.isDead && decide (p.state = CState.breeding) &&
        decide (|p.position.x - c.position.x| < 5) &&
        decide (|p.position.z - c.position.z| < 5)) <;> rfl
  · rfl

/-- The movement phase either leaves the store alone or — only when a food
target is set — writes the arrival-at-food update. -/
theorem movePhase_snd (o : Oracle) (snap : SimState) (c : Creature) (l : Locals)
    (cur : SimState) :
    (movePhase o snap c l cur).2 = cur ∨
    (c.targetFoodId.isSome = true ∧
      (movePhase o snap c l cur).2 = updateCreature cur c.id (arriveEatingUpd snap)) := by
  unfold movePhase
  cases hnt : l.newTargetPosition with
  | none => left; rfl
  | some tgt =>
      dsimp only
      split
      · split
        · rename_i h2
          right; exact ⟨h2, rfl⟩
        · left; rfl
      · left; rfl

/-- With no food target set, the movement phase never changes the store and
never changes `newState`. -/
theorem movePhase_none (o : Oracle) (snap : SimState) (c : Creature) (l : Locals)
    (cur : SimState) (hc : c.targetFoodId = none) :
    (movePhase o snap c l cur).2 = cur ∧
    (movePhase o snap c l cur).1.newState = l.newState := by
  unfold movePhase
  cases hnt : l.newTargetPosition with
  | none => exact ⟨rfl, rfl⟩
  | some tgt =>
      dsimp only
      split
      · split
        · rename_i h2
          rw [hc] at h2; cases h2
        · exact ⟨rfl, rfl⟩
      · exact ⟨rfl, by split_ifs <;> rfl⟩

/-- Each component of the movement phase's committed position is either the
incoming one or lies within the ±49 wall. -/
theorem movePhase_fst_pos (o : Oracle) (snap : SimState) (c : Creature)
    (l : Locals) (cur : SimState) :
    ((movePhase o snap c l cur).1.newPosition.x = l.newPosition.x ∨
      (-49 ≤ (movePhase o snap c l cur).1.newPosition.x ∧
        (movePhase o snap c l cur).1.newPosition.x ≤ 49)) ∧
    ((movePhase o snap c l cur).1.newPosition.z = l.newPosition.z ∨
      (-49 ≤ (movePhase o snap c l cur).1.newPosition.z ∧
        (movePhase o snap c l cur).1.newPosition.z ≤ 49)) := by
  unfold movePhase
  cases hnt : l.newTargetPosition with
  | none => exact ⟨Or.inl rfl, Or.inl rfl⟩
  | some tgt =>
      dsimp only
      split
      · split
        · exact ⟨Or.inl rfl, Or.inl rfl⟩
        · exact ⟨Or.inl rfl, Or.inl rfl⟩
      · refine ⟨?_, ?_⟩ <;> split_ifs <;> tauto

/-- The movement phase's `newState` is the incoming one unless it is the
arrival transition to `eating`. -/
theorem movePhase_fst_state (o : Oracle) (snap : SimState) (c : Creature)
    (l : Locals) (cur : SimState) :
    (movePhase o snap c l cur).1.newState = CState.eating ∨
    (movePhase o snap c l cur).1.newState = l.newState := by
  unfold movePhase
  cases hnt : l.newTargetPosition with
  | none => right; rfl
  | some tgt =>
      dsimp only
      split
      · split
        · left; rfl
        · right; rfl
      · right; split_ifs <;> rfl

/-! ### C2 machinery: the `isDead` flag across one step -/

/-- `updateFood` does not touch `deadFlag`. -/
theorem deadFlag_updateFood (s : SimState) (i : Nat) (g : Food → Food) (j : Nat) :
    deadFlag (updateFood s i g) j = deadFlag s j := rfl

/-- `addFood` does not touch `deadFlag`. -/
theorem deadFlag_addFood (s : SimState) (mk : Nat → Food) (j : Nat) :
    deadFlag (addFood s mk) j = deadFlag s j := rfl

/-- The dispatch phase never changes any creature's `isDead` flag. -/
theorem dispatchState_deadFlag (snap : SimState) (r : CreatureRand) (c : Creature)
    (l : Locals) (cur : SimState) (j : Nat) (h : (findC cur j).isSome) :
    deadFlag (dispatchState snap r c l cur).2 j = deadFlag cur j := by
  unfold dispatchState
  cases l.newState
  case hungry =>
      rcases hungryBehavior_snd snap r c l cur with he | ⟨nf, _, _, he⟩
      · rw [he]
      · rw [he, deadFlag_updateCreature, deadFlag_updateFood] <;> exact fun x => rfl
  case eating =>
      rcases eatingBehavior_snd snap c l cur with he | he | ⟨tf, _, _, he⟩
      · rw [he]
      · rw [he, deadFlag_updateCreature] <;> exact fun x => rfl
      · rw [he, deadFlag_updateFood, deadFlag_updateCreature] <;> exact fun x => rfl
  case full =>
      rcases fullBehavior_snd snap r c l cur with he | ⟨p, _, _, _, _, he⟩
      · rw [he]
      · rw [he, deadFlag_updateCreature, deadFlag_updateCreature] <;> exact fun x => rfl
  case breeding =>
      rcases breedingBehavior_snd snap r c l cur with he | he | ⟨p, _, _, _, _, he⟩
      · rw [he]
      · rw [he, deadFlag_updateCreature, deadFlag_addCreature _ _ _ h] <;>
          exact fun x => rfl
      · rw [he, deadFlag_updateCreature, deadFlag_updateCreature,
          deadFlag_addCreature _ _ _ h] <;> exact fun x => rfl
  case searching => rfl
  case dead => rfl

/-- Effect of one per-creature pass on `deadFlag`: the flag of `j` flips to
`true` exactly when `c` is the creature with id `j`, was alive, and its hunger
clamps to zero this tick; otherwise it is untouched. -/
theorem simStepCreature_deadFlag (o : Oracle) (snap : SimState) (r : CreatureRand)
    (cur : SimState) (c : Creature) (j : Nat) (h : (findC cur j).isSome) :
    deadFlag (simStepCreature o snap r cur c) j =
      if c.id = j ∧ c.isDead = false ∧ deathCond snap c then some true
      else deadFlag cur j := by
  simp only [simStepCreature]
  by_cases hdead : c.isDead = true
  · rw [if_pos hdead, if_neg (by intro hx; rw [hx.2.1] at hdead; cases hdead)]
  · rw [if_neg hdead]
    have hdead' : c.isDead = false := by
      cases hb : c.isDead
      · rfl
      · exact absurd hb hdead
    by_cases hcond : max 0 (c.hunger - hungerDecrease snap) = 0 ∧ c.hunger > 0
    · rw [if_pos hcond]
      by_cases hj : c.id = j
      · rw [if_pos ⟨hj, hdead', hcond⟩]
        obtain ⟨x, hx⟩ := Option.isSome_iff_exists.mp h
        unfold deadFlag
        rw [findC_updateCreature _ _ (deathUpdate snap) (fun y => rfl) j, hx]
        have hxj := findC_some_id hx
        simp [deathUpdate, hxj, hj]
      · rw [if_neg (by intro hx; exact hj hx.1)]
        unfold deadFlag
        rw [findC_updateCreature_ne _ _ (deathUpdate snap) (fun y => rfl) j hj]
    · rw [if_neg hcond, if_neg (by intro hx; exact hcond hx.2.2)]
      have hb : deadFlag (baseTransition snap c
          ⟨c.state, c.targetPosition, c.isMoving, c.position⟩ cur).2 j = deadFlag cur j := by
        rcases baseTransition_snd snap c
            ⟨c.state, c.targetPosition, c.isMoving, c.position⟩ cur with he | he
        · rw [he]
        · rw [he, deadFlag_updateCreature] <;> exact fun x => rfl
      have hbs : (findC (baseTransition snap c
          ⟨c.state, c.targetPosition, c.isMoving, c.position⟩ cur).2 j).isSome := by
        rw [← deadFlag_isSome, hb, deadFlag_isSome]; exact h
      have hd := dispatchState_deadFlag snap r c
        (baseTransition snap c ⟨c.state, c.targetPosition, c.isMoving, c.position⟩ cur).1
        (baseTransition snap c ⟨c.state, c.targetPosition, c.isMoving, c.position⟩ cur).2
        j hbs
      have hds : (findC (dispatchState snap r c
          (baseTransition snap c ⟨c.state, c.targetPosition, c.isMoving, c.position⟩ cur).1
          (baseTransition snap c ⟨c.state, c.targetPosition, c.isMoving, c.position⟩
            cur).2).2 j).isSome := by
        rw [← deadFlag_isSome, hd, deadFlag_isSome]; exact hbs
      have hm : deadFlag (movePhase o snap c
          (dispatchState snap r c
            (baseTransition snap c ⟨c.state, c.targetPosition, c.isMoving, c.position⟩ cur).1
            (baseTransition snap c ⟨c.state, c.targetPosition, c.isMoving, c.position⟩
              cur).2).1
          (dispatchState snap r c
            (baseTransition snap c ⟨c.state, c.targetPosition, c.isMoving, c.position⟩ cur).1
            (baseTransition snap c ⟨c.state, c.targetPosition, c.isMoving, c.position⟩
              cur).2).2).2 j =
          deadFlag (dispatchState snap r c
            (baseTransition snap c ⟨c.state, c.targetPosition, c.isMoving, c.position⟩ cur).1
            (baseTransition snap c ⟨c.state, c.targetPosition, c.isMoving, c.position⟩
              cur).2).2 j := by
        rcases movePhase_snd o snap c _ _ with he | ⟨_, he⟩
        · rw [he]
        · rw [he, deadFlag_updateCreature] <;> exact fun x => rfl
      rw [deadFlag_updateCreature, hm, hd, hb] <;> exact fun x => rfl

/-- `creaturePass` over creatures whose ids avoid `j` leaves `deadFlag j`
untouched. -/
theorem creaturePass_deadFlag_notin (o : Oracle) (snap : SimState) (l : List Creature)
    (i : Nat) (cur : SimState) (j : Nat) (h : (findC cur j).isSome)
    (hj : ∀ d ∈ l, d.id ≠ j) :
    deadFlag (creaturePass o snap l i cur) j = deadFlag cur j := by
  induction l generalizing i cur with
  | nil => rfl
  | cons d rest ih =>
      have hstep := simStepCreature_deadFlag o snap (o.creatureRand i) cur d j h
      rw [if_neg (by intro hx; exact hj d (List.mem_cons_self d rest) hx.1)] at hstep
      have hs : (findC (simStepCreature o snap (o.creatureRand i) cur d) j).isSome := by
        rw [← deadFlag_isSome, hstep, deadFlag_isSome]; exact h
      unfold creaturePass
      rw [ih (i + 1) _ hs (fun d' hd' => hj d' (List.mem_cons_of_mem d hd')), hstep]

/-- `creaturePass` distributes over list append. -/
theorem creaturePass_append (o : Oracle) (snap : SimState) (l₁ l₂ : List Creature)
    (i : Nat) (cur : SimState) :
    creaturePass o snap (l₁ ++ l₂) i cur =
      creaturePass o snap l₂ (i + l₁.length) (creaturePass o snap l₁ i cur) := by
  induction l₁ generalizing i cur with
  | nil => rfl
  | cons d rest ih =>
      show creaturePass o snap (rest ++ l₂) (i + 1) _ = _
      rw [ih (i + 1)]
      have : i + 1 + rest.length = i + (d :: rest).length := by
        simp [List.length_cons]; omega
      rw [this]
      rfl

/-- Effect of the whole creature pass on `deadFlag j` when exactly one listed
creature carries id `j`. -/
theorem creaturePass_deadFlag_mem (o : Oracle) (snap : SimState)
    (l₁ l₂ : List Creature) (c : Creature) (i : Nat) (cur : SimState)
    (h : (findC cur j).isSome) (hc : c.id = j)
    (h₁ : ∀ d ∈ l₁, d.id ≠ j) (h₂ : ∀ d ∈ l₂, d.id ≠ j) :
    deadFlag (creaturePass o snap (l₁ ++ c :: l₂) i cur) j =
      if c.isDead = false ∧ deathCond snap c then some true else deadFlag cur j := by
  rw [creaturePass_append]
  have hflat : deadFlag (creaturePass o snap l₁ i cur) j = deadFlag cur j :=
    creaturePass_deadFlag_notin o snap l₁ i cur j h h₁
  have hs1 : (findC (creaturePass o snap l₁ i cur) j).isSome := by
    rw [← deadFlag_isSome, hflat, deadFlag_isSome]; exact h
  show deadFlag (creaturePass o snap (c :: l₂) _ _) j = _
  unfold creaturePass
  have hstep := simStepCreature_deadFlag o snap (o.creatureRand (i + l₁.length))
    (creaturePass o snap l₁ i cur) c j hs1
  have hs2 : (findC (simStepCreature o snap (o.creatureRand (i + l₁.length))
      (creaturePass o snap l₁ i cur) c) j).isSome := by
    rw [← deadFlag_isSome, hstep]
    split_ifs
    · rfl
    · rw [deadFlag_isSome]; exact hs1
  rw [creaturePass_deadFlag_notin o snap l₂ _ _ j hs2 h₂, hstep, hflat]
  by_cases hcase : c.isDead = false ∧ deathCond snap c
  · rw [if_pos ⟨hc, hcase.1, hcase.2⟩, if_pos hcase]
  · rw [if_neg (by intro hx; exact hcase ⟨hx.2.1, hx.2.2⟩), if_neg hcase]

/-- The respawn pass does not touch creatures. -/
theorem findC_respawnPass (snap : SimState) (l : List Food) (cur : SimState)
    (j : Nat) : findC (respawnPass snap l cur) j = findC cur j := by
  induction l generalizing cur with
  | nil => rfl
  | cons f rest ih =>
      unfold respawnPass
      rw [ih]
      split_ifs <;> rfl

/-- The food-spawn phase does not touch creatures. -/
theorem findC_foodSpawnPhase (o : Oracle) (cur : SimState) (j : Nat) :
    findC (foodSpawnPhase o cur) j = findC cur j := by
  unfold foodSpawnPhase
  split_ifs <;> rfl

/-- The environment phase does not touch creatures. -/
theorem findC_envPhase (snap cur : SimState) (j : Nat) :
    findC (envPhase snap cur) j = findC cur j := rfl

/-- C2: hunger-death is exact.  For a non-dead creature `c` of the
start-of-tick store, one `simulate` step sets its `isDead` flag if and only if
the decayed hunger clamps to 0 from a strictly positive value (so death occurs
on exactly that tick and on no other); and on the death tick the whole
per-creature pass is exactly the death write `isDead := true`,
`state := dead`, `lastStateChange := now` — no further per-creature processing
happens for it. -/
theorem starvationDeathTick (o : Oracle) (s : SimState) (c : Creature)
    (hnd : (s.creatures.map Creature.id).Nodup) (hc : c ∈ s.creatures)
    (hp : s.isPaused = false) :
    deadFlag (simulate o s) c.id = some (c.isDead || decide (deathCond s c)) ∧
    (c.isDead = false → deathCond s c →
      ∀ (cur : SimState) (r : CreatureRand),
        simStepCreature o s r cur c = updateCreature cur c.id (deathUpdate s)) := by
  constructor
  · obtain ⟨l₁, l₂, hsplit⟩ := List.append_of_mem hc
    have hnd' := hnd
    rw [hsplit, List.map_append, List.map_cons] at hnd'
    have hdisj := List.nodup_append.mp hnd'
    have h₁ : ∀ d ∈ l₁, d.id ≠ c.id := by
      intro d hd he
      exact hdisj.2.2 (List.mem_map_of_mem Creature.id hd)
        (by rw [he]; exact List.mem_cons_self _ _)
    have h₂ : ∀ d ∈ l₂, d.id ≠ c.id := by
      intro d hd he
      exact (List.nodup_cons.mp hdisj.2.1).1 (he ▸ List.mem_map_of_mem Creature.id hd)
    have hsim : simulate o s = envPhase s (foodSpawnPhase o (respawnPass s s.food
        (creaturePass o s s.creatures 0 (advanceTime s (1 * s.speed))))) := by
      rw [simulate, if_neg (by rw [hp]; exact Bool.false_ne_true)]
    have e1 : deadFlag (envPhase s (foodSpawnPhase o (respawnPass s s.food
        (creaturePass o s s.creatures 0 (advanceTime s (1 * s.speed)))))) c.id
        = deadFlag (creaturePass o s s.creatures 0 (advanceTime s (1 * s.speed))) c.id := by
      unfold deadFlag
      rw [findC_envPhase, findC_foodSpawnPhase, findC_respawnPass]
    rw [hsim, e1]
    have hfind : findC (advanceTime s (1 * s.speed)) c.id = some c := by
      rw [findC_advanceTime]
      exact findC_eq_of_mem s c hnd hc
    have hsome : (findC (advanceTime s (1 * s.speed)) c.id).isSome := by
      rw [hfind]; rfl
    rw [hsplit, creaturePass_deadFlag_mem o s l₁ l₂ c 0 _ hsome rfl h₁ h₂]
    have hd0 : deadFlag (advanceTime s (1 * s.speed)) c.id = some c.isDead := by
      unfold deadFlag
      rw [hfind]; rfl
    rw [hd0]
    by_cases h1 : c.isDead = true
    · rw [if_neg (fun hx => by rw [hx.1] at h1; cases h1), h1]
      simp
    · have h1' : c.isDead = false := by
        cases hb : c.isDead
        · rfl
        · exact absurd hb h1
      by_cases h2 : deathCond s c
      · rw [if_pos ⟨h1', h2⟩, h1']
        simp [h2]
      · rw [if_neg (fun hx => h2 hx.2), h1']
        simp [h2]
  · intro hdead hcond cur r
    simp only [simStepCreature]
    rw [if_neg (by rw [hdead]; exact Bool.false_ne_true), if_pos ⟨hcond.1, hcond.2⟩]

/-- Witness for C2: the goose with hunger 0.01 is marked dead by one step. -/
theorem starvationDeathTick_witness :
    deadFlag (simulate quietOracle starveState) 0 = some true := by
  have hP : deathCond starveState (mkGoose 0 0 0 CState.hungry (1/100) 0) := by
    constructor
    · norm_num [mkGoose, hungerDecrease, starveState]
    · norm_num [mkGoose]
  have h := (starvationDeathTick quietOracle starveState
    (mkGoose 0 0 0 CState.hungry (1/100) 0)
    (by simp [starveState, mkGoose]) (by simp [starveState]) rfl).1
  rw [show (mkGoose 0 0 0 CState.hungry (1/100) 0).id = 0 from rfl] at h
  rw [h, show (mkGoose 0 0 0 CState.hungry (1/100) 0).isDead = false from rfl,
    decide_eq_true hP]
  rfl

/-! ### C5 machinery: writes of one step never target a dead creature -/

/-- If every non-dead snapshot creature's id avoids `j`, the dispatch phase
leaves the `j` lookup untouched. -/
theorem dispatchState_findC_safe (snap : SimState) (r : CreatureRand) (c : Creature)
    (l : Locals) (cur : SimState) (j : Nat) (h : (findC cur j).isSome)
    (hcid : c.id ≠ j)
    (hsafe : ∀ p ∈ snap.creatures, p.isDead = false → p.id ≠ j) :
    findC (dispatchState snap r c l cur).2 j = findC cur j := by
  unfold dispatchState
  cases l.newState
  case hungry =>
      rcases hungryBehavior_snd snap r c l cur with he | ⟨nf, _, _, he⟩
      · rw [he]
      · rw [he, findC_updateCreature_ne _ _ (eatUpd snap) (fun y => rfl) j hcid,
          findC_updateFood]
  case eating =>
      rcases eatingBehavior_snd snap c l cur with he | he | ⟨tf, _, _, he⟩
      · rw [he]
      · rw [he, findC_updateCreature_ne _ _ revertHungryUpd (fun y => rfl) j hcid]
      · rw [he, findC_updateFood,
          findC_updateCreature_ne _ _ (finishEatingUpd snap) (fun y => rfl) j hcid]
  case full =>
      rcases fullBehavior_snd snap r c l cur with he | ⟨p, hpm, hpd, _, _, he⟩
      · rw [he]
      · rw [he, findC_updateCreature_ne _ _ (breedEnter snap) (fun y => rfl) j
          (hsafe p hpm hpd),
          findC_updateCreature_ne _ _ (breedEnter snap) (fun y => rfl) j hcid]
  case breeding =>
      rcases breedingBehavior_snd snap r c l cur with he | he | ⟨p, hpm, hpd, _, _, he⟩
      · rw [he]
      · rw [he, findC_updateCreature_ne _ _ (breedReset snap) (fun y => rfl) j hcid,
          findC_addCreature _ _ _ h]
      · rw [he, findC_updateCreature_ne _ _ (breedReset snap) (fun y => rfl) j
          (hsafe p hpm hpd),
          findC_updateCreature_ne _ _ (breedReset snap) (fun y => rfl) j hcid,
          findC_addCreature _ _ _ h]
  case searching => rfl
  case dead => rfl

/-- If every non-dead snapshot creature's id avoids `j`, one per-creature pass
leaves the `j` lookup untouched. -/
theorem simStepCreature_findC_safe (o : Oracle) (snap : SimState) (r : CreatureRand)
    (cur : SimState) (c : Creature) (j : Nat) (h : (findC cur j).isSome)
    (hmem : c ∈ snap.creatures)
    (hsafe : ∀ p ∈ snap.creatures, p.isDead = false → p.id ≠ j) :
    findC (simStepCreature o snap r cur c) j = findC cur j := by
  simp only [simStepCreature]
  by_cases hdead : c.isDead = true
  · rw [if_pos hdead]
  · rw [if_neg hdead]
    have hdead' : c.isDead = false := by
      cases hb : c.isDead
      · rfl
      · exact absurd hb hdead
    have hcid : c.id ≠ j := hsafe c hmem hdead'
    by_cases hcond : max 0 (c.hunger - hungerDecrease snap) = 0 ∧ c.hunger > 0
    · rw [if_pos hcond]
      exact findC_updateCreature_ne _ _ (deathUpdate snap) (fun y => rfl) j hcid
    · rw [if_neg hcond]
      have hb : findC (baseTransition snap c
          ⟨c.state, c.targetPosition, c.isMoving, c.position⟩ cur).2 j = findC cur j := by
        rcases baseTransition_snd snap c
            ⟨c.state, c.targetPosition, c.isMoving, c.position⟩ cur with he | he
        · rw [he]
        · rw [he, findC_updateCreature_ne _ _ (lastStateUpd snap) (fun y => rfl) j hcid]
      have hbs : (findC (baseTransition snap c
          ⟨c.state, c.targetPosition, c.isMoving, c.position⟩ cur).2 j).isSome := by
        rw [hb]; exact h
      have hd := dispatchState_findC_safe snap r c
        (baseTransition snap c ⟨c.state, c.targetPosition, c.isMoving, c.position⟩ cur).1
        (baseTransition snap c ⟨c.state, c.targetPosition, c.isMoving, c.position⟩ cur).2
        j hbs hcid hsafe
      have hm : findC (movePhase o snap c
          (dispatchState snap r c
            (baseTransition snap c ⟨c.state, c.targetPosition, c.isMoving, c.position⟩ cur).1
            (baseTransition snap c ⟨c.state, c.targetPosition, c.isMoving, c.position⟩
              cur).2).1
          (dispatchState snap r c
            (baseTransition snap c ⟨c.state, c.targetPosition, c.isMoving, c.position⟩ cur).1
            (baseTransition snap c ⟨c.state, c.targetPosition, c.isMoving, c.position⟩
              cur).2).2).2 j =
          findC (dispatchState snap r c
            (baseTransition snap c ⟨c.state, c.targetPosition, c.isMoving, c.position⟩ cur).1
            (baseTransition snap c ⟨c.state, c.targetPosition, c.isMoving, c.position⟩
              cur).2).2 j := by
        rcases movePhase_snd o snap c _ _ with he | ⟨_, he⟩
        · rw [he]
        · rw [he, findC_updateCreature_ne _ _ (arriveEatingUpd snap) (fun y => rfl) j hcid]
      rw [findC_updateCreature_ne, hm, hd, hb]
      all_goals first
        | exact fun y => rfl
        | exact hcid

/-- The whole creature pass leaves the `j` lookup untouched when every
non-dead snapshot creature's id avoids `j`. -/
theorem creaturePass_findC_safe (o : Oracle) (snap : SimState) (l : List Creature)
    (i : Nat) (cur : SimState) (j : Nat) (h : (findC cur j).isSome)
    (hl : ∀ d ∈ l, d ∈ snap.creatures)
    (hsafe : ∀ p ∈ snap.creatures, p.isDead = false → p.id ≠ j) :
    findC (creaturePass o snap l i cur) j = findC cur j := by
  induction l generalizing i cur with
  | nil => rfl
  | cons d rest ih =>
      have hstep := simStepCreature_findC_safe o snap (o.creatureRand i) cur d j h
        (hl d (List.mem_cons_self d rest)) hsafe
      have hs : (findC (simStepCreature o snap (o.creatureRand i) cur d) j).isSome := by
        rw [hstep]; exact h
      unfold creaturePass
      rw [ih (i + 1) _ hs (fun d' hd' => hl d' (List.mem_cons_of_mem d hd')), hstep]

/-- C5: a dead creature is bit-for-bit untouched by every subsequent
`simulate` step — it is skipped by the creature pass and never selected as a
breeding partner or reset as one, so its record (in particular its `dead`
state) never changes again. -/
theorem deadCreatureUntouched (o : Oracle) (s : SimState) (c : Creature)
    (hnd : (s.creatures.map Creature.id).Nodup) (hc : c ∈ s.creatures)
    (hdead : c.isDead = true) :
    findC (simulate o s) c.id = some c := by
  have hsafe : ∀ p ∈ s.creatures, p.isDead = false → p.id ≠ c.id := by
    intro p hp hpd he
    have := key_inj_of_nodup Creature.id s.creatures p c hnd hp hc he
    rw [this, hdead] at hpd
    cases hpd
  by_cases hp : s.isPaused = true
  · rw [simulate, if_pos hp]
    exact findC_eq_of_mem s c hnd hc
  · have hsim : simulate o s = envPhase s (foodSpawnPhase o (respawnPass s s.food
        (creaturePass o s s.creatures 0 (advanceTime s (1 * s.speed))))) := by
      rw [simulate, if_neg hp]
    have hfind : findC (advanceTime s (1 * s.speed)) c.id = some c := by
      rw [findC_advanceTime]
      exact findC_eq_of_mem s c hnd hc
    rw [hsim]
    unfold findF at *
    rw [findC_envPhase, findC_foodSpawnPhase, findC_respawnPass,
      creaturePass_findC_safe o s s.creatures 0 _ c.id (by rw [hfind]; rfl)
        (fun d hd => hd) hsafe, hfind]

/-- Witness for C5: the dead goose of `deadGooseState` is returned unchanged
by a step that meanwhile processes a living creature. -/
theorem deadCreatureUntouched_witness :
    findC (simulate quietOracle deadGooseState) 0 =
      some { mkGoose 0 2 2 CState.dead 0 0 with isDead := true } := by
  have h := deadCreatureUntouched quietOracle deadGooseState
    { mkGoose 0 2 2 CState.dead 0 0 with isDead := true }
    (by simp [deadGooseState, mkGoose]) (by simp [deadGooseState]) rfl
  simpa [mkGoose] using h

/-! ### C7 machinery: the hunger range invariant -/

/-- A creature write that keeps hunger in range preserves `HungerOK`. -/
theorem HungerOK_updateCreature (s : SimState) (i : Nat) (f : Creature → Creature)
    (hs : HungerOK s)
    (hf : ∀ x, 0 ≤ x.hunger → x.hunger ≤ 100 → 0 ≤ (f x).hunger ∧ (f x).hunger ≤ 100) :
    HungerOK (updateCreature s i f) := by
  intro c' hc'
  obtain ⟨x, hx, rfl⟩ := List.mem_map.mp hc'
  by_cases h : x.id = i
  · rw [if_pos h]
    exact hf x (hs x hx).1 (hs x hx).2
  · rw [if_neg h]
    exact hs x hx

/-- Appending a creature with in-range hunger preserves `HungerOK`. -/
theorem HungerOK_addCreature (s : SimState) (mk : Nat → Creature) (hs : HungerOK s)
    (hb : 0 ≤ (mk s.nextId).hunger ∧ (mk s.nextId).hunger ≤ 100) :
    HungerOK (addCreature s mk) := by
  intro c' hc'
  rcases List.mem_append.mp hc' with h | h
  · exact hs c' h
  · rw [List.mem_singleton.mp h]
    exact hb

/-- The dispatch phase preserves the hunger range (the offspring's seeded
hunger `50 + roll * 20` is in range for a roll in [0, 1)). -/
theorem dispatchState_hungerOK (snap : SimState) (r : CreatureRand) (c : Creature)
    (l : Locals) (cur : SimState) (hcur : HungerOK cur)
    (hr : 0 ≤ r.babyHunger ∧ r.babyHunger < 1) :
    HungerOK (dispatchState snap r c l cur).2 := by
  have hbaby : ∀ s' : SimState, 0 ≤ (babyOf snap r c s'.nextId).hunger ∧
      (babyOf snap r c s'.nextId).hunger ≤ 100 := by
    intro s'
    unfold babyOf
    constructor <;> [nlinarith [hr.1]; nlinarith [hr.1, hr.2]]
  unfold dispatchState
  cases l.newState
  case hungry =>
      rcases hungryBehavior_snd snap r c l cur with he | ⟨nf, _, _, he⟩ <;> rw [he]
      · exact hcur
      · exact HungerOK_updateCreature _ _ _ hcur (fun x _ _ => by norm_num [eatUpd])
  case eating =>
      rcases eatingBehavior_snd snap c l cur with he | he | ⟨tf, _, _, he⟩ <;> rw [he]
      · exact hcur
      · exact HungerOK_updateCreature _ _ _ hcur
          (fun x h1 h2 => by simpa [revertHungryUpd] using ⟨h1, h2⟩)
      · exact HungerOK_updateCreature _ _ _ hcur (fun x _ _ => by norm_num [finishEatingUpd])
  case full =>
      rcases fullBehavior_snd snap r c l cur with he | ⟨p, _, _, _, _, he⟩ <;> rw [he]
      · exact hcur
      · exact HungerOK_updateCreature _ _ _
          (HungerOK_updateCreature _ _ _ hcur
            (fun x h1 h2 => by simpa [breedEnter] using ⟨h1, h2⟩))
          (fun x h1 h2 => by simpa [breedEnter] using ⟨h1, h2⟩)
  case breeding =>
      rcases breedingBehavior_snd snap r c l cur with he | he | ⟨p, _, _, _, _, he⟩ <;>
        rw [he]
      · exact hcur
      · exact HungerOK_updateCreature _ _ _
          (HungerOK_addCreature _ _ hcur (hbaby cur))
          (fun x h1 h2 => by simpa [breedReset] using ⟨h1, h2⟩)
      · exact HungerOK_updateCreature _ _ _
          (HungerOK_updateCreature _ _ _
            (HungerOK_addCreature _ _ hcur (hbaby cur))
            (fun x h1 h2 => by simpa [breedReset] using ⟨h1, h2⟩))
          (fun x h1 h2 => by simpa [breedReset] using ⟨h1, h2⟩)
  case searching => exact hcur
  case dead => exact hcur

/-- One per-creature pass preserves the hunger range, given the snapshot
creature's hunger is in range and the speed multiplier is nonnegative. -/
theorem simStepCreature_hungerOK (o : Oracle) (snap : SimState) (r : CreatureRand)
    (cur : SimState) (c : Creature) (hcur : HungerOK cur)
    (hc : 0 ≤ c.hunger ∧ c.hunger ≤ 100) (hsp : 0 ≤ snap.speed)
    (hr : 0 ≤ r.babyHunger ∧ r.babyHunger < 1) :
    HungerOK (simStepCreature o snap r cur c) := by
  simp only [simStepCreature]
  by_cases hdead : c.isDead = true
  · rw [if_pos hdead]
    exact hcur
  · rw [if_neg hdead]
    have hnew : 0 ≤ max 0 (c.hunger - hungerDecrease snap) ∧
        max 0 (c.hunger - hungerDecrease snap) ≤ 100 := by
      constructor
      · exact le_max_left 0 _
      · have hd : 0 ≤ hungerDecrease snap := by
          unfold hungerDecrease
          nlinarith
        apply max_le (by norm_num)
        nlinarith [hc.2]
    by_cases hcond : max 0 (c.hunger - hungerDecrease snap) = 0 ∧ c.hunger > 0
    · rw [if_pos hcond]
      exact HungerOK_updateCreature _ _ _ hcur
        (fun x h1 h2 => by simpa [deathUpdate] using ⟨h1, h2⟩)
    · rw [if_neg hcond]
      have hb : HungerOK (baseTransition snap c
          ⟨c.state, c.targetPosition, c.isMoving, c.position⟩ cur).2 := by
        rcases baseTransition_snd snap c
            ⟨c.state, c.targetPosition, c.isMoving, c.position⟩ cur with he | he <;> rw [he]
        · exact hcur
        · exact HungerOK_updateCreature _ _ _ hcur
            (fun x h1 h2 => by simpa [lastStateUpd] using ⟨h1, h2⟩)
      have hd := dispatchState_hungerOK snap r c
        (baseTransition snap c ⟨c.state, c.targetPosition, c.isMoving, c.position⟩ cur).1
        (baseTransition snap c ⟨c.state, c.targetPosition, c.isMoving, c.position⟩ cur).2
        hb hr
      have hm : HungerOK (movePhase o snap c
          (dispatchState snap r c
            (baseTransition snap c ⟨c.state, c.targetPosition, c.isMoving, c.position⟩ cur).1
            (baseTransition snap c ⟨c.state, c.targetPosition, c.isMoving, c.position⟩
              cur).2).1
          (dispatchState snap r c
            (baseTransition snap c ⟨c.state, c.targetPosition, c.isMoving, c.position⟩ cur).1
            (baseTransition snap c ⟨c.state, c.targetPosition, c.isMoving, c.position⟩
              cur).2).2).2 := by
        rcases movePhase_snd o snap c _ _ with he | ⟨_, he⟩ <;> rw [he]
        · exact hd
        · exact HungerOK_updateCreature _ _ _ hd
            (fun x h1 h2 => by simpa [arriveEatingUpd] using ⟨h1, h2⟩)
      exact HungerOK_updateCreature _ _ _ hm (fun x _ _ => hnew)

/-- The respawn pass does not change the creature list. -/
theorem respawnPass_creatures (snap : SimState) (l : List Food) (cur : SimState) :
    (respawnPass snap l cur).creatures = cur.creatures := by
  induction l generalizing cur with
  | nil => rfl
  | cons f rest ih =>
      unfold respawnPass
      rw [ih]
      split_ifs <;> rfl

/-- The food-spawn phase does not change the creature list. -/
theorem foodSpawnPhase_creatures (o : Oracle) (cur : SimState) :
    (foodSpawnPhase o cur).creatures = cur.creatures := by
  unfold foodSpawnPhase
  split_ifs <;> rfl

/-- The whole creature pass preserves the hunger range. -/
theorem creaturePass_hungerOK (o : Oracle) (snap : SimState) (l : List Creature)
    (i : Nat) (cur : SimState) (hcur : HungerOK cur)
    (hl : ∀ d ∈ l, 0 ≤ d.hunger ∧ d.hunger ≤ 100) (hsp : 0 ≤ snap.speed)
    (hr : ∀ k, 0 ≤ (o.creatureRand k).babyHunger ∧ (o.creatureRand k).babyHunger < 1) :
    HungerOK (creaturePass o snap l i cur) := by
  induction l generalizing i cur with
  | nil => exact hcur
  | cons d rest ih =>
      exact ih (i + 1) _
        (simStepCreature_hungerOK o snap (o.creatureRand i) cur d hcur
          (hl d (List.mem_cons_self d rest)) hsp (hr i))
        (fun d' hd' => hl d' (List.mem_cons_of_mem d hd'))

/-- C7: hunger stays in [0, 100] across one `simulate` step — decay clamps at
0 and cannot push an in-range hunger above 100 for a nonnegative speed,
feeding writes exactly 100, and offspring are seeded with hunger in [50, 70).
The hypotheses are that every creature starts in range, the speed multiplier
is nonnegative, and the offspring-hunger rolls are genuine `Math.random()`
draws in [0, 1). -/
theorem hungerInRange (o : Oracle) (s : SimState) (hs : HungerOK s)
    (hsp : 0 ≤ s.speed)
    (hr : ∀ k, 0 ≤ (o.creatureRand k).babyHunger ∧ (o.creatureRand k).babyHunger < 1) :
    HungerOK (simulate o s) := by
  by_cases hp : s.isPaused = true
  · rw [simulate, if_pos hp]
    exact hs
  · have hsim : simulate o s = envPhase s (foodSpawnPhase o (respawnPass s s.food
        (creaturePass o s s.creatures 0 (advanceTime s (1 * s.speed))))) := by
      rw [simulate, if_neg hp]
    rw [hsim]
    have hpass : HungerOK (creaturePass o s s.creatures 0 (advanceTime s (1 * s.speed))) :=
      creaturePass_hungerOK o s s.creatures 0 _ hs (fun d hd => hs d hd) hsp hr
    intro c' hc'
    exact hpass c' (by
      have e : (envPhase s (foodSpawnPhase o (respawnPass s s.food
          (creaturePass o s s.creatures 0 (advanceTime s (1 * s.speed)))))).creatures =
          (creaturePass o s s.creatures 0 (advanceTime s (1 * s.speed))).creatures := by
        show (foodSpawnPhase o (respawnPass s s.food _)).creatures = _
        rw [foodSpawnPhase_creatures, respawnPass_creatures]
      rwa [e] at hc')

/-- Witness for C7 at the paused concrete store (hunger 42 stays in range). -/
theorem hungerInRange_witness : HungerOK (simulate quietOracle pausedState) := by
  apply hungerInRange quietOracle pausedState
  · intro c hc
    simp only [pausedState] at hc
    rw [List.mem_singleton.mp hc]
    constructor <;> norm_num [mkGoose]
  · norm_num [pausedState]
  · intro k
    constructor <;> norm_num [quietOracle]

/-! ### C4 machinery: the wall-boundary invariant -/

/-- A position- and id-preserving creature write preserves `PosOK`. -/
theorem PosOK_updateCreature_pres (s : SimState) (n0 i : Nat) (f : Creature → Creature)
    (hs : PosOK n0 s)
    (hf : ∀ x, (f x).id = x.id ∧ (f x).position = x.position) :
    PosOK n0 (updateCreature s i f) := by
  intro c' hc'
  obtain ⟨x, hx, rfl⟩ := List.mem_map.mp hc'
  by_cases h : x.id = i
  · rw [if_pos h, (hf x).2]
    refine ⟨(hs x hx).1, (hs x hx).2.1, ?_⟩
    rw [(hf x).1]
    exact (hs x hx).2.2
  · rw [if_neg h]
    exact hs x hx

/-- A creature write whose written position is within the ±49 wall preserves
`PosOK` outright. -/
theorem PosOK_updateCreature_commit (s : SimState) (n0 i : Nat)
    (f : Creature → Creature) (hs : PosOK n0 s)
    (hf : ∀ x, |(f x).position.x| ≤ 49 ∧ |(f x).position.z| ≤ 49) :
    PosOK n0 (updateCreature s i f) := by
  intro c' hc'
  obtain ⟨x, hx, rfl⟩ := List.mem_map.mp hc'
  by_cases h : x.id = i
  · rw [if_pos h]
    exact ⟨le_trans (hf x).1 (by norm_num), le_trans (hf x).2 (by norm_num),
      fun _ => hf x⟩
  · rw [if_neg h]
    exact hs x hx

/-- Appending a creature within ±50 whose id is at least `n0` preserves
`PosOK`. -/
theorem PosOK_addCreature (s : SimState) (n0 : Nat) (mk : Nat → Creature)
    (hs : PosOK n0 s)
    (hb : |(mk s.nextId).position.x| ≤ 50 ∧ |(mk s.nextId).position.z| ≤ 50)
    (hid : (mk s.nextId).id = s.nextId) (hn : n0 ≤ s.nextId) :
    PosOK n0 (addCreature s mk) := by
  intro c' hc'
  rcases List.mem_append.mp hc' with h | h
  · exact hs c' h
  · rw [List.mem_singleton.mp h]
    exact ⟨hb.1, hb.2, fun hlt => absurd (hid ▸ hlt) (by omega)⟩

/-- The eating behaviour leaves `newPosition` unchanged. -/
theorem eatingBehavior_fst_pos (snap : SimState) (c : Creature) (l : Locals)
    (cur : SimState) :
    (eatingBehavior snap c l cur).1.newPosition = l.newPosition := by
  unfold eatingBehavior
  cases c.targetFoodId with
  | none => rfl
  | some fid =>
      dsimp only
      cases snap.food.find? (fun f => decide (f.id = fid)) with
      | none => rfl
      | some tf =>
          dsimp only
          split_ifs <;> rfl

/-- The dispatch phase leaves `newPosition` unchanged. -/
theorem dispatchState_fst_pos (snap : SimState) (r : CreatureRand) (c : Creature)
    (l : Locals) (cur : SimState) :
    (dispatchState snap r c l cur).1.newPosition = l.newPosition := by
  unfold dispatchState
  cases l.newState
  case hungry => exact (hungryBehavior_fst snap r c l cur).2
  case eating => exact eatingBehavior_fst_pos snap c l cur
  case full => exact (fullBehavior_fst snap r c l cur).2
  case breeding => rw [breedingBehavior_fst]
  case searching => rfl
  case dead => rfl

/-- The offspring is placed within one arena unit of its parent per axis. -/
theorem babyOf_position (snap : SimState) (r : CreatureRand) (c : Creature) (i : Nat)
    (hcx : |c.position.x| ≤ 49) (hcz : |c.position.z| ≤ 49)
    (hrx : 0 ≤ r.babyDx ∧ r.babyDx < 1) (hrz : 0 ≤ r.babyDz ∧ r.babyDz < 1) :
    |(babyOf snap r c i).position.x| ≤ 50 ∧ |(babyOf snap r c i).position.z| ≤ 50 := by
  unfold babyOf
  constructor
  · calc |c.position.x + (r.babyDx - 1/2) * 2|
        ≤ |c.position.x| + |(r.babyDx - 1/2) * 2| := abs_add _ _
      _ ≤ 49 + 1 := by
          gcongr
          exact abs_le.mpr ⟨by nlinarith [hrx.1], by nlinarith [hrx.2]⟩
      _ = 50 := by norm_num
  · calc |c.position.z + (r.babyDz - 1/2) * 2|
        ≤ |c.position.z| + |(r.babyDz - 1/2) * 2| := abs_add _ _
      _ ≤ 49 + 1 := by
          gcongr
          exact abs_le.mpr ⟨by nlinarith [hrz.1], by nlinarith [hrz.2]⟩
      _ = 50 := by norm_num

/-- The dispatch phase preserves `PosOK` and the fresh-id floor. -/
theorem dispatchState_posOK (snap : SimState) (r : CreatureRand) (c : Creature)
    (l : Locals) (cur : SimState) (n0 : Nat) (hcur : PosOK n0 cur)
    (hn : n0 ≤ cur.nextId)
    (hcx : |c.position.x| ≤ 49) (hcz : |c.position.z| ≤ 49)
    (hrx : 0 ≤ r.babyDx ∧ r.babyDx < 1) (hrz : 0 ≤ r.babyDz ∧ r.babyDz < 1) :
    PosOK n0 (dispatchState snap r c l cur).2 ∧
      n0 ≤ (dispatchState snap r c l cur).2.nextId := by
  unfold dispatchState
  cases l.newState
  case hungry =>
      rcases hungryBehavior_snd snap r c l cur with he | ⟨nf, _, _, he⟩ <;> rw [he]
      · exact ⟨hcur, hn⟩
      · exact ⟨PosOK_updateCreature_pres _ _ _ _ hcur (fun x => ⟨rfl, rfl⟩), hn⟩
  case eating =>
      rcases eatingBehavior_snd snap c l cur with he | he | ⟨tf, _, _, he⟩ <;> rw [he]
      · exact ⟨hcur, hn⟩
      · exact ⟨PosOK_updateCreature_pres _ _ _ _ hcur (fun x => ⟨rfl, rfl⟩), hn⟩
      · exact ⟨PosOK_updateCreature_pres _ _ _ _ hcur (fun x => ⟨rfl, rfl⟩), hn⟩
  case full =>
      rcases fullBehavior_snd snap r c l cur with he | ⟨p, _, _, _, _, he⟩ <;> rw [he]
      · exact ⟨hcur, hn⟩
      · exact ⟨PosOK_updateCreature_pres _ _ _ _
          (PosOK_updateCreature_pres _ _ _ _ hcur (fun x => ⟨rfl, rfl⟩))
          (fun x => ⟨rfl, rfl⟩), hn⟩
  case breeding =>
      rcases breedingBehavior_snd snap r c l cur with he | he | ⟨p, _, _, _, _, he⟩ <;>
        rw [he]
      · exact ⟨hcur, hn⟩
      · refine ⟨PosOK_updateCreature_pres _ _ _ _
          (PosOK_addCreature _ _ _ hcur
            (babyOf_position snap r c cur.nextId hcx hcz hrx hrz) rfl hn)
          (fun x => ⟨rfl, rfl⟩), ?_⟩
        show n0 ≤ cur.nextId + 1
        omega
      · refine ⟨PosOK_updateCreature_pres _ _ _ _
          (PosOK_updateCreature_pres _ _ _ _
            (PosOK_addCreature _ _ _ hcur
              (babyOf_position snap r c cur.nextId hcx hcz hrx hrz) rfl hn)
            (fun x => ⟨rfl, rfl⟩))
          (fun x => ⟨rfl, rfl⟩), ?_⟩
        show n0 ≤ cur.nextId + 1
        omega
  case searching => exact ⟨hcur, hn⟩
  case dead => exact ⟨hcur, hn⟩

/-- One per-creature pass preserves `PosOK` and the fresh-id floor. -/
theorem simStepCreature_posOK (o : Oracle) (snap : SimState) (r : CreatureRand)
    (cur : SimState) (c : Creature) (n0 : Nat) (hcur : PosOK n0 cur)
    (hn : n0 ≤ cur.nextId)
    (hcpos : |c.position.x| ≤ 49 ∧ |c.position.z| ≤ 49)
    (hrx : 0 ≤ r.babyDx ∧ r.babyDx < 1) (hrz : 0 ≤ r.babyDz ∧ r.babyDz < 1) :
    PosOK n0 (simStepCreature o snap r cur c) ∧
      n0 ≤ (simStepCreature o snap r cur c).nextId := by
  simp only [simStepCreature]
  by_cases hdead : c.isDead = true
  · rw [if_pos hdead]
    exact ⟨hcur, hn⟩
  · rw [if_neg hdead]
    by_cases hcond : max 0 (c.hunger - hungerDecrease snap) = 0 ∧ c.hunger > 0
    · rw [if_pos hcond]
      exact ⟨PosOK_updateCreature_pres _ _ _ _ hcur (fun x => ⟨rfl, rfl⟩), hn⟩
    · rw [if_neg hcond]
      have hb0 : PosOK n0 (baseTransition snap c
          ⟨c.state, c.targetPosition, c.isMoving, c.position⟩ cur).2 ∧
          n0 ≤ (baseTransition snap c
            ⟨c.state, c.targetPosition, c.isMoving, c.position⟩ cur).2.nextId := by
        rcases baseTransition_snd snap c
            ⟨c.state, c.targetPosition, c.isMoving, c.position⟩ cur with he | he <;> rw [he]
        · exact ⟨hcur, hn⟩
        · exact ⟨PosOK_updateCreature_pres _ _ _ _ hcur (fun x => ⟨rfl, rfl⟩), hn⟩
      have hd0 := dispatchState_posOK snap r c
        (baseTransition snap c ⟨c.state, c.targetPosition, c.isMoving, c.position⟩ cur).1
        (baseTransition snap c ⟨c.state, c.targetPosition, c.isMoving, c.position⟩ cur).2
        n0 hb0.1 hb0.2 hcpos.1 hcpos.2 hrx hrz
      have hm0 : PosOK n0 (movePhase o snap c
          (dispatchState snap r c
            (baseTransition snap c ⟨c.state, c.targetPosition, c.isMoving, c.position⟩ cur).1
            (baseTransition snap c ⟨c.state, c.targetPosition, c.isMoving, c.position⟩
              cur).2).1
          (dispatchState snap r c
            (baseTransition snap c ⟨c.state, c.targetPosition, c.isMoving, c.position⟩ cur).1
            (baseTransition snap c ⟨c.state, c.targetPosition, c.isMoving, c.position⟩
              cur).2).2).2 ∧
          n0 ≤ (movePhase o snap c
            (dispatchState snap r c
              (baseTransition snap c ⟨c.state, c.targetPosition, c.isMoving, c.position⟩ cur).1
              (baseTransition snap c ⟨c.state, c.targetPosition, c.isMoving, c.position⟩
                cur).2).1
            (dispatchState snap r c
              (baseTransition snap c ⟨c.state, c.targetPosition, c.isMoving, c.position⟩ cur).1
              (baseTransition snap c ⟨c.state, c.targetPosition, c.isMoving, c.position⟩
                cur).2).2).2.nextId := by
        rcases movePhase_snd o snap c _ _ with he | ⟨_, he⟩ <;> rw [he]
        · exact hd0
        · exact ⟨PosOK_updateCreature_pres _ _ _ _ hd0.1 (fun x => ⟨rfl, rfl⟩), hd0.2⟩
      have hl0 : (baseTransition snap c
          ⟨c.state, c.targetPosition, c.isMoving, c.position⟩ cur).1.newPosition =
          c.position :=
        (baseTransition_fst_rest snap c
          ⟨c.state, c.targetPosition, c.isMoving, c.position⟩ cur).2.2
      have hcommit : ∀ x : Creature,
          |(commitCreature c (movePhase o snap c
            (dispatchState snap r c
              (baseTransition snap c ⟨c.state, c.targetPosition, c.isMoving, c.position⟩ cur).1
              (baseTransition snap c ⟨c.state, c.targetPosition, c.isMoving, c.position⟩
                cur).2).1
            (dispatchState snap r c
              (baseTransition snap c ⟨c.state, c.targetPosition, c.isMoving, c.position⟩ cur).1
              (baseTransition snap c ⟨c.state, c.targetPosition, c.isMoving, c.position⟩
                cur).2).2).1
            (jsMod (c.idleAnimation + 1 * snap.speed * (1/10)) 1)
            (max 0 (c.hunger - hungerDecrease snap)) x).position.x| ≤ 49 ∧
          |(commitCreature c (movePhase o snap c
            (dispatchState snap r c
              (baseTransition snap c ⟨c.state, c.targetPosition, c.isMoving, c.position⟩ cur).1
              (baseTransition snap c ⟨c.state, c.targetPosition, c.isMoving, c.position⟩
                cur).2).1
            (dispatchState snap r c
              (baseTransition snap c ⟨c.state, c.targetPosition, c.isMoving, c.position⟩ cur).1
              (baseTransition snap c ⟨c.state, c.targetPosition, c.isMoving, c.position⟩
                cur).2).2).1
            (jsMod (c.idleAnimation + 1 * snap.speed * (1/10)) 1)
            (max 0 (c.hunger - hungerDecrease snap)) x).position.z| ≤ 49 := by
        intro x
        unfold commitCreature
        constructor
        · show |(movePhase o snap c _ _).1.newPosition.x| ≤ 49
          rcases (movePhase_fst_pos o snap c
            (dispatchState snap r c _ _).1 (dispatchState snap r c _ _).2).1 with he | hbd
          · rw [he, dispatchState_fst_pos, hl0]
            exact hcpos.1
          · exact abs_le.mpr ⟨hbd.1, hbd.2⟩
        · show |(movePhase o snap c _ _).1.newPosition.z| ≤ 49
          rcases (movePhase_fst_pos o snap c
            (dispatchState snap r c _ _).1 (dispatchState snap r c _ _).2).2 with he | hbd
          · rw [he, dispatchState_fst_pos, hl0]
            exact hcpos.2
          · exact abs_le.mpr ⟨hbd.1, hbd.2⟩
      exact ⟨PosOK_updateCreature_commit _ _ _ _ hm0.1 hcommit, hm0.2⟩

/-- The whole creature pass preserves `PosOK`. -/
theorem creaturePass_posOK (o : Oracle) (snap : SimState) (l : List Creature)
    (i : Nat) (cur : SimState) (n0 : Nat) (hcur : PosOK n0 cur)
    (hn : n0 ≤ cur.nextId)
    (hl : ∀ d ∈ l, |d.position.x| ≤ 49 ∧ |d.position.z| ≤ 49)
    (hr : ∀ k, (0 ≤ (o.creatureRand k).babyDx ∧ (o.creatureRand k).babyDx < 1) ∧
      (0 ≤ (o.creatureRand k).babyDz ∧ (o.creatureRand k).babyDz < 1)) :
    PosOK n0 (creaturePass o snap l i cur) := by
  induction l generalizing i cur with
  | nil => exact hcur
  | cons d rest ih =>
      have hstep := simStepCreature_posOK o snap (o.creatureRand i) cur d n0 hcur hn
        (hl d (List.mem_cons_self d rest)) (hr i).1 (hr i).2
      exact ih (i + 1) _ hstep.1 hstep.2 (fun d' hd' => hl d' (List.mem_cons_of_mem d hd'))

/-- C4 (amended): from a state with every creature inside the ±49 wall and
ids below `nextId`, one `simulate` step keeps every creature within ±50, and
every pre-existing creature (id below the old `nextId`) within ±49; only
newly created offspring may exceed the wall, by less than one unit. -/
theorem wallBoundAmended (o : Oracle) (s : SimState)
    (hs : ∀ c ∈ s.creatures, |c.position.x| ≤ 49 ∧ |c.position.z| ≤ 49)
    (hr : ∀ k, (0 ≤ (o.creatureRand k).babyDx ∧ (o.creatureRand k).babyDx < 1) ∧
      (0 ≤ (o.creatureRand k).babyDz ∧ (o.creatureRand k).babyDz < 1)) :
    PosOK s.nextId (simulate o s) := by
  have hinit : PosOK s.nextId s :=
    fun c hc => ⟨le_trans (hs c hc).1 (by norm_num),
      le_trans (hs c hc).2 (by norm_num), fun _ => hs c hc⟩
  by_cases hp : s.isPaused = true
  · rw [simulate, if_pos hp]
    exact hinit
  · have hsim : simulate o s = envPhase s (foodSpawnPhase o (respawnPass s s.food
        (creaturePass o s s.creatures 0 (advanceTime s (1 * s.speed))))) := by
      rw [simulate, if_neg hp]
    rw [hsim]
    have hpass : PosOK s.nextId
        (creaturePass o s s.creatures 0 (advanceTime s (1 * s.speed))) :=
      creaturePass_posOK o s s.creatures 0 _ s.nextId hinit le_rfl hs hr
    intro c' hc'
    exact hpass c' (by
      have e : (envPhase s (foodSpawnPhase o (respawnPass s s.food
          (creaturePass o s s.creatures 0 (advanceTime s (1 * s.speed)))))).creatures =
          (creaturePass o s s.creatures 0 (advanceTime s (1 * s.speed))).creatures := by
        show (foodSpawnPhase o (respawnPass s s.food _)).creatures = _
        rw [foodSpawnPhase_creatures, respawnPass_creatures]
      rwa [e] at hc')

/-- Witness for the amended C4 at the wall-hugging parent state. -/
theorem wallBoundAmended_witness :
    PosOK wallParentState.nextId (simulate wallOracle wallParentState) := by
  apply wallBoundAmended wallOracle wallParentState
  · intro c hc
    simp only [wallParentState] at hc
    rw [List.mem_singleton.mp hc]
    constructor <;> norm_num [mkGoose]
  · intro k
    refine ⟨⟨?_, ?_⟩, ⟨?_, ?_⟩⟩ <;> norm_num [wallOracle]

/-! ### C6 machinery: food availability transitions -/

/-- A tracked food lookup resolves. -/
theorem FoodTracked_isSome (snap : SimState) (f : Food) (cur : SimState)
    (h : FoodTracked snap f cur) : (findF cur f.id).isSome := by
  rcases h with h | ⟨_, h⟩ <;> rw [h] <;> rfl

/-- Consuming any snapshot-available food keeps `f` tracked. -/
theorem FoodTracked_consume (snap : SimState) (f : Food) (cur : SimState)
    (hnd : (snap.food.map Food.id).Nodup) (hfm : f ∈ snap.food)
    (nf : Food) (hnfm : nf ∈ snap.food) (hnfa : nf.isAvailable = true)
    (h : FoodTracked snap f cur) :
    FoodTracked snap f (updateFood cur nf.id (eatenFoodUpd snap)) := by
  by_cases he : nf.id = f.id
  · have hnf : nf = f := key_inj_of_nodup Food.id snap.food nf f hnd hnfm hfm he
    subst hnf
    rcases h with h | ⟨ha, h⟩
    · right
      refine ⟨hnfa, ?_⟩
      rw [findF_updateFood _ _ (eatenFoodUpd snap) (fun x => rfl) _, h]
      simp
    · right
      refine ⟨ha, ?_⟩
      rw [findF_updateFood _ _ (eatenFoodUpd snap) (fun x => rfl) _, h]
      simp [eatenFoodUpd]
  · rcases h with h | ⟨ha, h⟩
    · left
      rw [findF_updateFood_ne _ _ (eatenFoodUpd snap) (fun x => rfl) _ he]
      exact h
    · right
      refine ⟨ha, ?_⟩
      rw [findF_updateFood_ne _ _ (eatenFoodUpd snap) (fun x => rfl) _ he]
      exact h

/-- The dispatch phase keeps `f` tracked (its only food writes are
consumptions of snapshot-available items). -/
theorem dispatchState_foodTracked (snap : SimState) (r : CreatureRand) (c : Creature)
    (l : Locals) (cur : SimState) (f : Food)
    (hnd : (snap.food.map Food.id).Nodup) (hfm : f ∈ snap.food)
    (h : FoodTracked snap f cur) :
    FoodTracked snap f (dispatchState snap r c l cur).2 := by
  unfold dispatchState
  cases l.newState
  case hungry =>
      rcases hungryBehavior_snd snap r c l cur with he | ⟨nf, hnfm, hnfa, he⟩ <;> rw [he]
      · exact h
      · exact FoodTracked_consume snap f cur hnd hfm nf hnfm hnfa h
  case eating =>
      rcases eatingBehavior_snd snap c l cur with he | he | ⟨tf, htfm, htfa, he⟩ <;> rw [he]
      · exact h
      · exact h
      · exact FoodTracked_consume snap f
          (updateCreature cur c.id (finishEatingUpd snap)) hnd hfm tf htfm htfa h
  case full =>
      rcases fullBehavior_snd snap r c l cur with he | ⟨p, _, _, _, _, he⟩ <;> rw [he]
      · exact h
      · exact h
  case breeding =>
      rcases breedingBehavior_snd snap r c l cur with he | he | ⟨p, _, _, _, _, he⟩ <;>
        rw [he]
      · exact h
      · exact h
      · exact h
  case searching => exact h
  case dead => exact h

/-- One per-creature pass keeps `f` tracked. -/
theorem simStepCreature_foodTracked (o : Oracle) (snap : SimState) (r : CreatureRand)
    (cur : SimState) (c : Creature) (f : Food)
    (hnd : (snap.food.map Food.id).Nodup) (hfm : f ∈ snap.food)
    (h : FoodTracked snap f cur) :
    FoodTracked snap f (simStepCreature o snap r cur c) := by
  simp only [simStepCreature]
  by_cases hdead : c.isDead = true
  · rw [if_pos hdead]
    exact h
  · rw [if_neg hdead]
    by_cases hcond : max 0 (c.hunger - hungerDecrease snap) = 0 ∧ c.hunger > 0
    · rw [if_pos hcond]
      exact h
    · rw [if_neg hcond]
      have hb : FoodTracked snap f (baseTransition snap c
          ⟨c.state, c.targetPosition, c.isMoving, c.position⟩ cur).2 := by
        rcases baseTransition_snd snap c
            ⟨c.state, c.targetPosition, c.isMoving, c.position⟩ cur with he | he <;> rw [he]
        · exact h
        · exact h
      have hd := dispatchState_foodTracked snap r c
        (baseTransition snap c ⟨c.state, c.targetPosition, c.isMoving, c.position⟩ cur).1
        (baseTransition snap c ⟨c.state, c.targetPosition, c.isMoving, c.position⟩ cur).2
        f hnd hfm hb
      rcases movePhase_snd o snap c
          (dispatchState snap r c
            (baseTransition snap c ⟨c.state, c.targetPosition, c.isMoving, c.position⟩ cur).1
            (baseTransition snap c ⟨c.state, c.targetPosition, c.isMoving, c.position⟩
              cur).2).1
          (dispatchState snap r c
            (baseTransition snap c ⟨c.state, c.targetPosition, c.isMoving, c.position⟩ cur).1
            (baseTransition snap c ⟨c.state, c.targetPosition, c.isMoving, c.position⟩
              cur).2).2 with he | ⟨_, he⟩ <;> rw [he] <;> exact hd

/-- The whole creature pass keeps `f` tracked. -/
theorem creaturePass_foodTracked (o : Oracle) (snap : SimState) (l : List Creature)
    (i : Nat) (cur : SimState) (f : Food)
    (hnd : (snap.food.map Food.id).Nodup) (hfm : f ∈ snap.food)
    (h : FoodTracked snap f cur) :
    FoodTracked snap f (creaturePass o snap l i cur) := by
  induction l generalizing i cur with
  | nil => exact h
  | cons d rest ih =>
      exact ih (i + 1) _ (simStepCreature_foodTracked o snap (o.creatureRand i) cur d f
        hnd hfm h)

/-- The respawn pass over foods avoiding `j` leaves the `j` lookup unchanged. -/
theorem respawnPass_notin (snap : SimState) (l : List Food) (cur : SimState) (j : Nat)
    (hj : ∀ g ∈ l, g.id ≠ j) :
    findF (respawnPass snap l cur) j = findF cur j := by
  induction l generalizing cur with
  | nil => rfl
  | cons g rest ih =>
      unfold respawnPass
      rw [ih _ (fun g' hg' => hj g' (List.mem_cons_of_mem g hg'))]
      split_ifs with hc
      · exact findF_updateFood_ne _ _ respawnUpd (fun x => rfl) j (hj g (List.mem_cons_self g rest))
      · rfl

/-- `respawnPass` distributes over append. -/
theorem respawnPass_append (snap : SimState) (l₁ l₂ : List Food) (cur : SimState) :
    respawnPass snap (l₁ ++ l₂) cur = respawnPass snap l₂ (respawnPass snap l₁ cur) := by
  induction l₁ generalizing cur with
  | nil => rfl
  | cons g rest ih =>
      show respawnPass snap (rest ++ l₂) _ = _
      rw [ih]
      rfl

/-- The respawn pass takes a tracked food to its final characterization:
unchanged, consumed, or respawned after the elapsed delay. -/
theorem respawnPass_foodFinal (snap : SimState) (l₁ l₂ : List Food) (f : Food)
    (cur : SimState)
    (h₁ : ∀ g ∈ l₁, g.id ≠ f.id) (h₂ : ∀ g ∈ l₂, g.id ≠ f.id)
    (h : FoodTracked snap f cur) :
    FoodFinal snap f (respawnPass snap (l₁ ++ f :: l₂) cur) := by
  rw [respawnPass_append]
  have hkeep : findF (respawnPass snap l₁ cur) f.id = findF cur f.id :=
    respawnPass_notin snap l₁ cur f.id h₁
  have h' : FoodTracked snap f (respawnPass snap l₁ cur) := by
    unfold FoodTracked at h ⊢
    rw [hkeep]
    exact h
  show FoodFinal snap f (respawnPass snap (f :: l₂) _)
  unfold respawnPass
  split_ifs with hc
  · have hfa : f.isAvailable = false := by
      cases hb : f.isAvailable
      · rfl
      · exact absurd hb hc.1
    have hval : findF (respawnPass snap l₁ cur) f.id = some f := by
      rcases h' with h' | ⟨ha, _⟩
      · exact h'
      · rw [ha] at hfa
        cases hfa
    right
    refine ⟨hfa, hc.2, ?_⟩
    rw [respawnPass_notin snap l₂ _ f.id h₂,
      findF_updateFood _ _ respawnUpd (fun x => rfl) _, hval]
    simp [respawnUpd]
  · left
    unfold FoodTracked at h' ⊢
    rw [respawnPass_notin snap l₂ _ f.id h₂]
    exact h'

/-- The spontaneous food spawn and environment phases keep the final food
characterization. -/
theorem FoodFinal_tail (snap : SimState) (f : Food) (o : Oracle) (cur : SimState)
    (h : FoodFinal snap f cur) :
    FoodFinal snap f (envPhase snap (foodSpawnPhase o cur)) := by
  have hsome : (findF cur f.id).isSome := by
    rcases h with h | ⟨_, _, h⟩
    · exact FoodTracked_isSome snap f cur h
    · rw [h]; rfl
  have e : findF (envPhase snap (foodSpawnPhase o cur)) f.id = findF cur f.id := by
    unfold envPhase
    rw [findF_updateEnvironment]
    unfold foodSpawnPhase
    split_ifs with hroll
    · exact findF_addFood cur _ f.id hsome
    · rfl
  unfold FoodFinal FoodTracked at h ⊢
  rw [e]
  exact h

/-- C6: across one `simulate` step, a food item is either untouched, or flips
available → unavailable only by being consumed this tick (stamping
`lastEaten := now`), or flips unavailable → available only when
`now - lastEaten > 1500` — never earlier; per step at most one transition
happens, so per cycle the transitions are monotone. -/
theorem foodAvailabilityTransitions (o : Oracle) (s : SimState) (f : Food)
    (hnd : (s.food.map Food.id).Nodup) (hf : f ∈ s.food) :
    FoodFinal s f (simulate o s) := by
  have hinit : findF s f.id = some f := findF_eq_of_mem s f hnd hf
  by_cases hp : s.isPaused = true
  · rw [simulate, if_pos hp]
    left; left
    exact hinit
  · have hsim : simulate o s = envPhase s (foodSpawnPhase o (respawnPass s s.food
        (creaturePass o s s.creatures 0 (advanceTime s (1 * s.speed))))) := by
      rw [simulate, if_neg hp]
    rw [hsim]
    obtain ⟨l₁, l₂, hsplit⟩ := List.append_of_mem hf
    have hnd' := hnd
    rw [hsplit, List.map_append, List.map_cons] at hnd'
    have hdisj := List.nodup_append.mp hnd'
    have h₁ : ∀ g ∈ l₁, g.id ≠ f.id := by
      intro g hg he
      exact hdisj.2.2 (List.mem_map_of_mem Food.id hg)
        (by rw [he]; exact List.mem_cons_self _ _)
    have h₂ : ∀ g ∈ l₂, g.id ≠ f.id := by
      intro g hg he
      exact (List.nodup_cons.mp hdisj.2.1).1 (he ▸ List.mem_map_of_mem Food.id hg)
    have htr : FoodTracked s f
        (creaturePass o s s.creatures 0 (advanceTime s (1 * s.speed))) := by
      apply creaturePass_foodTracked o s s.creatures 0 _ f hnd hf
      left
      rw [findF_advanceTime]
      exact hinit
    apply FoodFinal_tail
    rw [hsplit]
    exact respawnPass_foodFinal s l₁ l₂ f _ h₁ h₂ htr

/-- Witness for C6: the foraging scenario's food item after one step. -/
theorem foodAvailabilityTransitions_witness :
    FoodFinal eatScenarioState
      { id := 5, position := ⟨2, -(14/5), 1⟩, isAvailable := true,
        nutritionValue := 40, respawnTime := 1500, lastEaten := 0 }
      (simulate quietOracle eatScenarioState) := by
  apply foodAvailabilityTransitions quietOracle eatScenarioState
  · simp [eatScenarioState]
  · simp [eatScenarioState]

/-! ### C10 machinery: food targets are only cleared, eating is unreachable -/

/-- A creature write that maps a cleared food target to a cleared food target
preserves `NoTargets`. -/
theorem NoTargets_updateCreature (s : SimState) (i : Nat) (f : Creature → Creature)
    (hs : NoTargets s)
    (hf : ∀ x, x.targetFoodId = none → (f x).targetFoodId = none) :
    NoTargets (updateCreature s i f) := by
  intro c' hc'
  obtain ⟨x, hx, rfl⟩ := List.mem_map.mp hc'
  by_cases h : x.id = i
  · rw [if_pos h]
    exact hf x (hs x hx)
  · rw [if_neg h]
    exact hs x hx

/-- Appending a creature with no food target preserves `NoTargets`. -/
theorem NoTargets_addCreature (s : SimState) (mk : Nat → Creature) (hs : NoTargets s)
    (hb : (mk s.nextId).targetFoodId = none) :
    NoTargets (addCreature s mk) := by
  intro c' hc'
  rcases List.mem_append.mp hc' with h | h
  · exact hs c' h
  · rw [List.mem_singleton.mp h]
    exact hb

/-- A creature write whose eating output is justified — either the input was
already eating or an eating snapshot creature carries the target id —
preserves `EatingFrom`. -/
theorem EatingFrom_updateCreature (snap cur : SimState) (i : Nat)
    (f : Creature → Creature) (hs : EatingFrom snap cur)
    (hid : ∀ x, (f x).id = x.id)
    (hf : ∀ x, (f x).state = CState.eating →
      (x.state = CState.eating ∨
        ∃ c0 ∈ snap.creatures, c0.id = i ∧ c0.state = CState.eating)) :
    EatingFrom snap (updateCreature cur i f) := by
  intro c' hc' hst
  obtain ⟨x, hx, rfl⟩ := List.mem_map.mp hc'
  by_cases h : x.id = i
  · rw [if_pos h] at hst ⊢
    rcases hf x hst with hxe | ⟨c0, hc0, hc0i, hc0e⟩
    · obtain ⟨c0, hc0, hc0i, hc0e⟩ := hs x hx hxe
      exact ⟨c0, hc0, by rw [hc0i, ← hid x], hc0e⟩
    · exact ⟨c0, hc0, by rw [hc0i, ← h, ← hid x], hc0e⟩
  · rw [if_neg h] at hst ⊢
    exact hs x hx hst

/-- Appending a non-eating creature preserves `EatingFrom`. -/
theorem EatingFrom_addCreature (snap cur : SimState) (mk : Nat → Creature)
    (hs : EatingFrom snap cur) (hb : (mk cur.nextId).state ≠ CState.eating) :
    EatingFrom snap (addCreature cur mk) := by
  intro c' hc' hst
  rcases List.mem_append.mp hc' with h | h
  · exact hs c' h hst
  · rw [List.mem_singleton.mp h] at hst
    exact absurd hst hb

/-- With no food target on the dispatched creature, the dispatch phase
preserves both invariants. -/
theorem dispatchState_eatInv (snap : SimState) (r : CreatureRand) (c : Creature)
    (l : Locals) (cur : SimState) (hc : c.targetFoodId = none)
    (hN : NoTargets cur) (hE : EatingFrom snap cur) :
    NoTargets (dispatchState snap r c l cur).2 ∧
      EatingFrom snap (dispatchState snap r c l cur).2 := by
  unfold dispatchState
  cases l.newState
  case hungry =>
      rcases hungryBehavior_snd snap r c l cur with he | ⟨nf, _, _, he⟩ <;> rw [he]
      · exact ⟨hN, hE⟩
      · constructor
        · exact NoTargets_updateCreature _ _ _ hN (fun x _ => rfl)
        · exact EatingFrom_updateCreature snap _ _ _ hE (fun x => rfl)
            (fun x hst => by simp [eatUpd] at hst)
  case eating =>
      rw [eatingBehavior_none snap c l cur hc]
      exact ⟨hN, hE⟩
  case full =>
      rcases fullBehavior_snd snap r c l cur with he | ⟨p, _, _, _, _, he⟩ <;> rw [he]
      · exact ⟨hN, hE⟩
      · constructor
        · exact NoTargets_updateCreature _ _ _
            (NoTargets_updateCreature _ _ _ hN
              (fun x hx => by simpa [breedEnter] using hx))
            (fun x hx => by simpa [breedEnter] using hx)
        · exact EatingFrom_updateCreature snap _ _ _
            (EatingFrom_updateCreature snap _ _ _ hE (fun x => rfl)
              (fun x hst => by simp [breedEnter] at hst))
            (fun x => rfl)
            (fun x hst => by simp [breedEnter] at hst)
  case breeding =>
      rcases breedingBehavior_snd snap r c l cur with he | he | ⟨p, _, _, _, _, he⟩ <;>
        rw [he]
      · exact ⟨hN, hE⟩
      · constructor
        · exact NoTargets_updateCreature _ _ _
            (NoTargets_addCreature _ _ hN (by simp [babyOf]))
            (fun x hx => by simpa [breedReset] using hx)
        · exact EatingFrom_updateCreature snap _ _ _
            (EatingFrom_addCreature snap _ _ hE (by simp [babyOf]))
            (fun x => rfl)
            (fun x hst => by simp [breedReset] at hst)
      · constructor
        · exact NoTargets_updateCreature _ _ _
            (NoTargets_updateCreature _ _ _
              (NoTargets_addCreature _ _ hN (by simp [babyOf]))
              (fun x hx => by simpa [breedReset] using hx))
            (fun x hx => by simpa [breedReset] using hx)
        · exact EatingFrom_updateCreature snap _ _ _
            (EatingFrom_updateCreature snap _ _ _
              (EatingFrom_addCreature snap _ _ hE (by simp [babyOf]))
              (fun x => rfl)
              (fun x hst => by simp [breedReset] at hst))
            (fun x => rfl)
            (fun x hst => by simp [breedReset] at hst)
  case searching => exact ⟨hN, hE⟩
  case dead => exact ⟨hN, hE⟩

/-- With no food target on the dispatched creature, its dispatched `newState`
can be `eating` only if it came in as `eating`. -/
theorem dispatchState_fst_state_eating (snap : SimState) (r : CreatureRand)
    (c : Creature) (l : Locals) (cur : SimState) (hc : c.targetFoodId = none)
    (hst : (dispatchState snap r c l cur).1.newState = CState.eating) :
    l.newState = CState.eating := by
  revert hst
  unfold dispatchState
  cases hl : l.newState <;> intro hst
  case hungry =>
      rcases (hungryBehavior_fst snap r c l cur).1 with he | he <;>
        rw [he] at hst
      · cases hst
      · rw [hl] at hst
        cases hst
  case eating => rfl
  case full =>
      rcases (fullBehavior_fst snap r c l cur).1 with he | he <;> rw [he] at hst
      · cases hst
      · rw [hl] at hst
        cases hst
  case breeding =>
      rw [breedingBehavior_fst] at hst
      rw [hl] at hst
      cases hst
  case searching =>
      rw [hl] at hst
      cases hst
  case dead =>
      rw [hl] at hst
      cases hst

/-- One per-creature pass preserves both invariants, given the snapshot has
no food targets. -/
theorem simStepCreature_eatInv (o : Oracle) (snap : SimState) (r : CreatureRand)
    (cur : SimState) (c : Creature) (hcm : c ∈ snap.creatures)
    (hsnap : NoTargets snap) (hN : NoTargets cur) (hE : EatingFrom snap cur) :
    NoTargets (simStepCreature o snap r cur c) ∧
      EatingFrom snap (simStepCreature o snap r cur c) := by
  have hc : c.targetFoodId = none := hsnap c hcm
  simp only [simStepCreature]
  by_cases hdead : c.isDead = true
  · rw [if_pos hdead]
    exact ⟨hN, hE⟩
  · rw [if_neg hdead]
    by_cases hcond : max 0 (c.hunger - hungerDecrease snap) = 0 ∧ c.hunger > 0
    · rw [if_pos hcond]
      constructor
      · exact NoTargets_updateCreature _ _ _ hN
          (fun x hx => by simpa [deathUpdate] using hx)
      · exact EatingFrom_updateCreature snap _ _ _ hE (fun x => rfl)
          (fun x hst => by simp [deathUpdate] at hst)
    · rw [if_neg hcond]
      have hb0 : NoTargets (baseTransition snap c
          ⟨c.state, c.targetPosition, c.isMoving, c.position⟩ cur).2 ∧
          EatingFrom snap (baseTransition snap c
            ⟨c.state, c.targetPosition, c.isMoving, c.position⟩ cur).2 := by
        rcases baseTransition_snd snap c
            ⟨c.state, c.targetPosition, c.isMoving, c.position⟩ cur with he | he <;> rw [he]
        · exact ⟨hN, hE⟩
        · constructor
          · exact NoTargets_updateCreature _ _ _ hN
              (fun x hx => by simpa [lastStateUpd] using hx)
          · exact EatingFrom_updateCreature snap _ _ _ hE (fun x => rfl)
              (fun x hst => Or.inl (by simpa [lastStateUpd] using hst))
      have hd0 := dispatchState_eatInv snap r c
        (baseTransition snap c ⟨c.state, c.targetPosition, c.isMoving, c.position⟩ cur).1
        (baseTransition snap c ⟨c.state, c.targetPosition, c.isMoving, c.position⟩ cur).2
        hc hb0.1 hb0.2
      have hmv := movePhase_none o snap c
        (dispatchState snap r c
          (baseTransition snap c ⟨c.state, c.targetPosition, c.isMoving, c.position⟩ cur).1
          (baseTransition snap c ⟨c.state, c.targetPosition, c.isMoving, c.position⟩
            cur).2).1
        (dispatchState snap r c
          (baseTransition snap c ⟨c.state, c.targetPosition, c.isMoving, c.position⟩ cur).1
          (baseTransition snap c ⟨c.state, c.targetPosition, c.isMoving, c.position⟩
            cur).2).2 hc
      rw [hmv.1]
      constructor
      · exact NoTargets_updateCreature _ _ _ hd0.1 (fun x hx => hx)
      · apply EatingFrom_updateCreature snap _ _ _ hd0.2
        · exact fun x => rfl
        intro x hst
        right
        refine ⟨c, hcm, rfl, ?_⟩
        have h1 : (movePhase o snap c
            (dispatchState snap r c
              (baseTransition snap c ⟨c.state, c.targetPosition, c.isMoving, c.position⟩ cur).1
              (baseTransition snap c ⟨c.state, c.targetPosition, c.isMoving, c.position⟩
                cur).2).1
            (dispatchState snap r c
              (baseTransition snap c ⟨c.state, c.targetPosition, c.isMoving, c.position⟩ cur).1
              (baseTransition snap c ⟨c.state, c.targetPosition, c.isMoving, c.position⟩
                cur).2).2).1.newState = CState.eating := by
          simpa [commitCreature] using hst
        rw [hmv.2] at h1
        have h2 := dispatchState_fst_state_eating snap r c _ _ hc h1
        rcases baseTransition_fst_state snap c
            ⟨c.state, c.targetPosition, c.isMoving, c.position⟩ cur with he | he | he <;>
          rw [he] at h2
        · cases h2
        · cases h2
        · exact h2

/-- The whole creature pass preserves both invariants. -/
theorem creaturePass_eatInv (o : Oracle) (snap : SimState) (l : List Creature)
    (i : Nat) (cur : SimState) (hl : ∀ d ∈ l, d ∈ snap.creatures)
    (hsnap : NoTargets snap) (hN : NoTargets cur) (hE : EatingFrom snap cur) :
    NoTargets (creaturePass o snap l i cur) ∧
      EatingFrom snap (creaturePass o snap l i cur) := by
  induction l generalizing i cur with
  | nil => exact ⟨hN, hE⟩
  | cons d rest ih =>
      have hstep := simStepCreature_eatInv o snap (o.creatureRand i) cur d
        (hl d (List.mem_cons_self d rest)) hsnap hN hE
      exact ih (i + 1) _ (fun d' hd' => hl d' (List.mem_cons_of_mem d hd'))
        hstep.1 hstep.2

/-- One `simulate` step preserves `NoTargets` and creates no new eaters. -/
theorem simulate_eatInv (o : Oracle) (s : SimState) (hsnap : NoTargets s) :
    NoTargets (simulate o s) ∧ EatingFrom s (simulate o s) := by
  by_cases hp : s.isPaused = true
  · rw [simulate, if_pos hp]
    exact ⟨hsnap, fun c' hc' hst => ⟨c', hc', rfl, hst⟩⟩
  · have hsim : simulate o s = envPhase s (foodSpawnPhase o (respawnPass s s.food
        (creaturePass o s s.creatures 0 (advanceTime s (1 * s.speed))))) := by
      rw [simulate, if_neg hp]
    rw [hsim]
    have hpass := creaturePass_eatInv o s s.creatures 0 (advanceTime s (1 * s.speed))
      (fun d hd => hd) hsnap hsnap (fun c' hc' hst => ⟨c', hc', rfl, hst⟩)
    have e : (envPhase s (foodSpawnPhase o (respawnPass s s.food
        (creaturePass o s s.creatures 0 (advanceTime s (1 * s.speed)))))).creatures =
        (creaturePass o s s.creatures 0 (advanceTime s (1 * s.speed))).creatures := by
      show (foodSpawnPhase o (respawnPass s s.food _)).creatures = _
      rw [foodSpawnPhase_creatures, respawnPass_creatures]
    constructor
    · intro c' hc'
      rw [e] at hc'
      exact hpass.1 c' hc'
    · intro c' hc' hst
      rw [e] at hc'
      exact hpass.2 c' hc' hst

/-- C10: no branch of `simulate` ever assigns a food id to `targetFoodId`
(spawned creatures and offspring start with it unset), so starting from any
state with no food targets, no sequence of `simulate` steps ever moves a
creature into the `eating` state: any eater after `n` steps descends from a
same-id eater of the initial state. -/
theorem noEatingWithoutTarget (os : Nat → Oracle) (s : SimState)
    (hsnap : NoTargets s) :
    ∀ n, NoTargets (iterSim os n s) ∧
      ∀ c' ∈ (iterSim os n s).creatures, c'.state = CState.eating →
        ∃ c ∈ s.creatures, c.id = c'.id ∧ c.state = CState.eating := by
  intro n
  induction n generalizing s with
  | zero => exact ⟨hsnap, fun c' hc' hst => ⟨c', hc', rfl, hst⟩⟩
  | succ m ih =>
      have hstep := simulate_eatInv (os m) s hsnap
      have hrec := ih (simulate (os m) s) hstep.1
      refine ⟨hrec.1, ?_⟩
      intro c' hc' hst
      obtain ⟨c₁, hc₁, hid₁, hst₁⟩ := hrec.2 c' hc' hst
      obtain ⟨c₀, hc₀, hid₀, hst₀⟩ := hstep.2 c₁ hc₁ hst₁
      exact ⟨c₀, hc₀, by rw [hid₀, hid₁], hst₀⟩

/-- Witness for C10: two steps from the empty store leave no eaters and no
food targets. -/
theorem noEatingWithoutTarget_witness :
    NoTargets (iterSim (fun _ => quietOracle) 2 emptyState) :=
  (noEatingWithoutTarget (fun _ => quietOracle) emptyState
    (by intro c hc; simp [emptyState] at hc) 2).1

end WebGeese
